import Mathlib

/-!
Shallow embedding of `src/parse.rs` of the rust-nmea repository: an NMEA 0183
sentence decoder built from nom 5 parser combinators.

Modelling conventions:
* A byte is a `Nat` (the code works on `&[u8]`; all comparisons are byte
  comparisons, so overflow never arises).
* A nom parser `IResult<&[u8], T>` becomes `List Nat → PR T` where `PR T`
  distinguishes success (remaining input + value), a nom error, and a Rust
  panic (the chrono constructors `NaiveTime::from_hms_nano` and
  `NaiveDate::from_ymd` abort the process on out-of-range components; we model
  them as `Option`-returning and surface `none` as `PR.panic`).
* `f32`/`f64` values are modelled as `ℚ` together with the sign of the parsed
  literal (needed for `is_sign_negative`); IEEE rounding, infinities and NaN
  are not representable, which none of the verified properties depend on.
* Rust `Result<T, String>` error strings are modelled by the closed enum
  `NErr`: `tooLong` ("Too long message"), `checksumMismatch`
  ("Checksum mismatch"), `grammar` (any nom `ErrorKind::description()`),
  `typeMismatch` ("... sentence not starts with $..XXX"), `unknownGnss`
  ("Unknown GNSS type in GSV sentence").
-/

/-- Result of a nom-style byte parser: remaining input and value, a nom
error, or a Rust panic propagating out of a mapping closure. -/
inductive PR (α : Type) where
  | ok : List Nat → α → PR α
  | err : PR α
  | panic : PR α
deriving DecidableEq

def PR.bind {α β : Type} : PR α → (List Nat → α → PR β) → PR β
  | .ok i a, f => f i a
  | .err, _ => .err
  | .panic, _ => .panic

/-- `map_res` plumbing: a fallible Rust conversion inside a parser; `none`
becomes a nom error. -/
def PR.ofOption {α β : Type} : Option α → (α → PR β) → PR β
  | some a, f => f a
  | none, _ => .err

/-- `map_parser` plumbing: continue with the value of a sub-parse, throwing
away whatever of its span the sub-parser left unconsumed. -/
def PR.discard {α β : Type} : PR α → (α → PR β) → PR β
  | .ok _ a, f => f a
  | .err, _ => .err
  | .panic, _ => .panic

/-- The distinct error values produced by the decoder (see module docstring
for the exact Rust strings each constructor stands for). -/
inductive NErr where
  | tooLong
  | checksumMismatch
  | grammar
  | typeMismatch
  | unknownGnss
deriving DecidableEq

/-- Outcome of a Rust function returning `Result<α, String>` that may also
panic. -/
inductive RRes (α : Type) where
  | ok : α → RRes α
  | error : NErr → RRes α
  | panic : RRes α
deriving DecidableEq

def isDigit (x : Nat) : Bool := 48 ≤ x && x ≤ 57

def isHexDigit (x : Nat) : Bool :=
  (48 ≤ x && x ≤ 57) || (65 ≤ x && x ≤ 70) || (97 ≤ x && x ≤ 102)

def hexVal (x : Nat) : Nat :=
  if 97 ≤ x then x - 87 else if 65 ≤ x then x - 55 else x - 48

/-- nom `char(c)`: consume exactly the byte `c`. -/
def pchar (c : Nat) : List Nat → PR Nat
  | [] => .err
  | x :: xs => if x = c then .ok xs x else .err

/-- nom `take(n)` (complete): consume exactly `n` bytes. -/
def ptake (n : Nat) (i : List Nat) : PR (List Nat) :=
  if n ≤ i.length then .ok (List.drop n i) (List.take n i) else .err

/-- nom `take_until(pattern)` for a 1-byte pattern: the consumed span stops
right before the first occurrence of `c`; fails if `c` does not occur. -/
def takeUntilByte (c : Nat) : List Nat → PR (List Nat)
  | [] => .err
  | x :: xs =>
    if x = c then .ok (x :: xs) []
    else
      match takeUntilByte c xs with
      | .ok r tk => .ok r (x :: tk)
      | _ => .err

/-- nom `tag(s)`: byte-wise prefix match; on success the value is the tag
itself. -/
def ptag : List Nat → List Nat → PR (List Nat)
  | [], i => .ok i []
  | _ :: _, [] => .err
  | c :: s', x :: i' =>
    if x = c then
      match ptag s' i' with
      | .ok r tk => .ok r (c :: tk)
      | _ => .err
    else .err

/-- nom `one_of(s)`: consume one byte that is a member of `s`. -/
def poneOf (s : List Nat) : List Nat → PR Nat
  | [] => .err
  | x :: xs => if x ∈ s then .ok xs x else .err

/-- nom `opt(p)`: backtracks on error, propagates panics. -/
def popt {α : Type} (p : List Nat → PR α) (i : List Nat) : PR (Option α) :=
  match p i with
  | .ok r a => .ok r (some a)
  | .err => .ok i none
  | .panic => .panic

/-- nom `take_while1(f)`. -/
def take_while1 (f : Nat → Bool) (i : List Nat) : PR (List Nat) :=
  let tk := i.takeWhile f
  if tk.isEmpty then .err else .ok (List.drop tk.length i) tk

/-- nom `all_consuming(p)`: succeeds only if `p` leaves no input. -/
def all_consuming {α : Type} (p : List Nat → PR α) (i : List Nat) : PR α :=
  match p i with
  | .ok [] a => .ok [] a
  | .ok (_ :: _) _ => .err
  | .err => .err
  | .panic => .panic

/-- nom `digit1`: the longest nonempty run of ASCII digits. -/
def digit1 (i : List Nat) : PR (List Nat) :=
  let ds := i.takeWhile isDigit
  if ds.isEmpty then .err else .ok (List.drop ds.length i) ds

def digitsToNat (ds : List Nat) : Nat :=
  ds.foldl (fun a d => a * 10 + (d - 48)) 0

/-- Rust `str::parse::<uN>` on a byte span (used via `parse_num`): optional
leading `'+'`, then one or more digits, value below `bound` (overflow is a
parse error). -/
def rustParseNat (bound : Nat) (bs : List Nat) : Option Nat :=
  let core := match bs with
    | 43 :: rest => rest
    | _ => bs
  if core.isEmpty then none
  else if core.all isDigit then
    let v := digitsToNat core
    if v < bound then some v else none
  else none

/-- `number::<T>` from the source: `map_res(digit1, parse_num)`. -/
def pnumber (bound : Nat) (i : List Nat) : PR Nat :=
  PR.bind (digit1 i) fun r ds =>
  PR.ofOption (rustParseNat bound ds) fun v => .ok r v

/-- Value of a parsed floating literal: `neg` is the IEEE sign bit (set iff
the literal began with `'-'`, which `f64::is_sign_negative` observes even for
negative zero), `val` its exact value as a rational. -/
structure RFloat where
  neg : Bool
  val : ℚ
deriving DecidableEq

/-- the `opt(one_of("+-"))` sign of `recognize_float` / Rust float parsing:
result is (sign bit set, remaining input). -/
def stripSign : List Nat → Bool × List Nat
  | [] => (false, [])
  | x :: xs =>
    if x = 43 then (false, xs)
    else if x = 45 then (true, xs)
    else (false, x :: xs)

/-- After a nonempty integer digit run with value `ipart`: the optional
`'.' digit0?` continuation of `recognize_float`. -/
def intTail (ipart : ℚ) : List Nat → PR ℚ
  | [] => .ok [] ipart
  | x :: r2 =>
    if x = 46 then
      let fs := r2.takeWhile isDigit
      .ok (List.drop fs.length r2)
        (ipart + (digitsToNat fs : ℚ) / (10 : ℚ) ^ fs.length)
    else .ok (x :: r2) ipart

/-- Mantissa of `recognize_float`: either `digit1 ('.' digit0?)?` or
`'.' digit1`, with its exact rational value. -/
def mantissaP (i1 : List Nat) : PR ℚ :=
  let ds := i1.takeWhile isDigit
  if ds.isEmpty then
    match i1 with
    | [] => .err
    | x :: r2 =>
      if x = 46 then
        let fs := r2.takeWhile isDigit
        if fs.isEmpty then .err
        else .ok (List.drop fs.length r2)
          ((digitsToNat fs : ℚ) / (10 : ℚ) ^ fs.length)
      else .err
  else intTail (digitsToNat ds : ℚ) (List.drop ds.length i1)

/-- Exponent of `recognize_float`: `e|E sign? digit1`; `none` means the
whole exponent backtracks. -/
def exponentP (i3 : List Nat) : Option (List Nat × Int) :=
  match i3 with
  | [] => none
  | e :: r3 =>
    if e = 101 ∨ e = 69 then
      let s := stripSign r3
      let eds := s.2.takeWhile isDigit
      if eds.isEmpty then none
      else some (List.drop eds.length s.2,
        if s.1 then -(digitsToNat eds : Int) else (digitsToNat eds : Int))
    else none

/-- nom 5 `double` / `float` (`recognize_float` grammar) with its exact
numeric value (ℚ instead of IEEE). -/
def pdouble (i : List Nat) : PR RFloat :=
  let s := stripSign i
  PR.bind (mantissaP s.2) fun i3 mant =>
    match exponentP i3 with
    | some (i4, e) =>
      .ok i4 ⟨s.1, (if s.1 then -mant else mant) * (10 : ℚ) ^ e⟩
    | none => .ok i3 ⟨s.1, if s.1 then -mant else mant⟩

/-- Rust `str::parse::<f32>` on a full span (`parse_float_num`): optional
sign, mantissa with at least one digit (digits, `d.`, `.d`, `d.d`), optional
exponent; the entire span must be consumed.  `inf`/`NaN` spellings have no ℚ
value and are left out of the model. -/
def rustParseFloat (bs : List Nat) : Option ℚ :=
  let s := stripSign bs
  match mantissaP s.2 with
  | .ok i3 mant =>
    let signed := if s.1 then -mant else mant
    match i3 with
    | [] => some signed
    | _ :: _ =>
      match exponentP i3 with
      | some ([], e) => some (signed * (10 : ℚ) ^ e)
      | _ => none
  | _ => none

/-- Modelled as a record in place of `chrono::NaiveTime`. -/
structure NTime where
  hour : Nat
  minute : Nat
  second : Nat
  nano : Nat
deriving DecidableEq

/-- chrono `NaiveTime::from_hms_nano`: panics (modelled as `none`) on an
invalid hour, minute, second or nanosecond; nanoseconds up to
`1_999_999_999` encode leap seconds and are accepted. -/
def NaiveTime_from_hms_nano (h m s n : Nat) : Option NTime :=
  if h < 24 ∧ m < 60 ∧ s < 60 ∧ n < 2000000000 then some ⟨h, m, s, n⟩ else none

/-- Modelled as a record in place of `chrono::NaiveDate`. -/
structure NDate where
  year : Int
  month : Nat
  day : Nat
deriving DecidableEq

def leapYear (y : Int) : Bool := (y % 4 = 0 && y % 100 ≠ 0) || y % 400 = 0

def daysInMonth (y : Int) (m : Nat) : Nat :=
  if m = 2 then (if leapYear y then 29 else 28)
  else if m = 4 ∨ m = 6 ∨ m = 9 ∨ m = 11 then 30
  else 31

/-- chrono `NaiveDate::from_ymd`: panics (modelled as `none`) on an
out-of-range or non-existent calendar date. -/
def NaiveDate_from_ymd (y : Int) (m d : Nat) : Option NDate :=
  if 1 ≤ m ∧ m ≤ 12 ∧ 1 ≤ d ∧ d ≤ daysInMonth y m then some ⟨y, m, d⟩ else none

/-- Modelled from the spec: the crate-root `GnssType` constellation tag
(GPS / GLONASS / Galileo / BeiDou); its definition lives outside `src/`. -/
inductive GnssType where
  | Gps | Glonass | Galileo | Beidou
deriving DecidableEq

/-- Modelled from the spec: the crate-root `Satellite` record (constellation
tag, PRN, optional elevation / azimuth / signal-to-noise); its definition
lives outside `src/`.  The `i32 → f32` casts in `parse_gsv_sat_info` are
modelled as the inclusion of the parsed integer into ℚ. -/
structure Satellite where
  gnss_type : GnssType
  prn : Nat
  elevation : Option ℚ
  azimuth : Option ℚ
  snr : Option ℚ
deriving DecidableEq

/-- Modelled from the spec: the crate-root `FixType` enum, a closed set
{invalid, GPS, DGPS, PPS, RTK-fixed, float-RTK, estimated, manual,
simulator}, and its mapping from the GGA fix-quality digit; its definition
lives outside `src/`.  `one_of("012345678")` makes the catch-all branch
unreachable. -/
inductive FixType where
  | Invalid | Gps | DGps | Pps | FixedRtk | FloatRtk | Estimated | Manual | Simulation
deriving DecidableEq

def FixType_from (c : Nat) : FixType :=
  if c = 48 then .Invalid
  else if c = 49 then .Gps
  else if c = 50 then .DGps
  else if c = 51 then .Pps
  else if c = 52 then .FixedRtk
  else if c = 53 then .FloatRtk
  else if c = 54 then .Estimated
  else if c = 55 then .Manual
  else if c = 56 then .Simulation
  else .Invalid

/-- `NmeaSentence` from the source: envelope fields of one framed sentence. -/
structure NmeaSentence where
  talker_id : List Nat
  message_id : List Nat
  data : List Nat
  checksum : Nat
deriving DecidableEq

/-- `checksum`: XOR fold of a byte span. -/
def checksum (bytes : List Nat) : Nat := bytes.foldl Nat.xor 0

/-- `NmeaSentence::calc_checksum`: XOR fold over
talker_id ++ message_id ++ ',' ++ data. -/
def calc_checksum (s : NmeaSentence) : Nat :=
  checksum (s.talker_id ++ s.message_id ++ [44] ++ s.data)

/-- `parse_hex`: `u8::from_str_radix(.., 16)` on the 2-byte span; Rust's
radix parser also accepts a leading `'+'`. -/
def parse_hex (data : List Nat) : Option Nat :=
  match data with
  | [a, b] =>
    if isHexDigit a && isHexDigit b then some (16 * hexVal a + hexVal b)
    else if a = 43 && isHexDigit b then some (hexVal b)
    else none
  | _ => none

/-- `parse_checksum`: `preceded(char('*'), take(2))` then `parse_hex`. -/
def parse_checksum (i : List Nat) : PR Nat :=
  (pchar 42 i).bind fun i1 _ =>
  (ptake 2 i1).bind fun i2 tk =>
  PR.ofOption (parse_hex tk) fun v => .ok i2 v

/-- `do_parse_nmea_sentence`: `'$' talker{2} message{3} ',' data '*' hex{2}`. -/
def do_parse_nmea_sentence (i : List Nat) : PR NmeaSentence :=
  (pchar 36 i).bind fun i1 _ =>
  (ptake 2 i1).bind fun i2 talker =>
  (ptake 3 i2).bind fun i3 msg =>
  (pchar 44 i3).bind fun i4 _ =>
  (takeUntilByte 42 i4).bind fun i5 dat =>
  (parse_checksum i5).bind fun i6 cs =>
  .ok i6 { talker_id := talker, message_id := msg, data := dat, checksum := cs }

/-- `parse_nmea_sentence`: rejects inputs longer than 102 bytes before any
tokenization, then frames. -/
def parse_nmea_sentence (sentence : List Nat) : RRes NmeaSentence :=
  if sentence.length > 102 then .error .tooLong
  else
    match do_parse_nmea_sentence sentence with
    | .ok _ s => .ok s
    | .err => .error .grammar
    | .panic => .panic

/-- `parse_hms`: 2-digit hour, 2-digit minute, then `take_until(",")` run
through `double` (`map_parser` discards any unconsumed suffix of the taken
span).  The closure rejects a negative-signed literal, hour ≥ 24 and
minute ≥ 60, then calls `NaiveTime::from_hms_nano` with the truncated
seconds (`as u32` saturates) and the fraction rounded to nanoseconds; that
call panics on seconds ≥ 60. -/
def parse_hms (i : List Nat) : PR NTime :=
  (ptake 2 i).bind fun i1 hb =>
  PR.ofOption (rustParseNat (2 ^ 32) hb) fun hour =>
  (ptake 2 i1).bind fun i2 mb =>
  PR.ofOption (rustParseNat (2 ^ 32) mb) fun minutes =>
  (takeUntilByte 44 i2).bind fun i3 sb =>
  PR.discard (pdouble sb) fun sec =>
    if sec.neg then .err
    else if hour ≥ 24 then .err
    else if minutes ≥ 60 then .err
    else
      let s := min (Int.toNat ⌊sec.val⌋) (2 ^ 32 - 1)
      let nano := Int.toNat (round ((sec.val - ⌊sec.val⌋) * 1000000000))
      match NaiveTime_from_hms_nano hour minutes s nano with
      | some t => .ok i3 t
      | none => .panic

/-- `do_parse_lat_lon`: 2-digit latitude degrees + floating minutes +
hemisphere in `"NS"`, then 3-digit longitude degrees + floating minutes +
hemisphere in `"EW"`; value is degrees + minutes/60, negated for 'S' / 'W'. -/
def do_parse_lat_lon (i : List Nat) : PR (ℚ × ℚ) :=
  (ptake 2 i).bind fun i1 latDegB =>
  PR.ofOption (rustParseNat 256 latDegB) fun lat_deg =>
  (pdouble i1).bind fun i2 lat_min =>
  (pchar 44 i2).bind fun i3 _ =>
  (poneOf [78, 83] i3).bind fun i4 lat_dir =>
  (pchar 44 i4).bind fun i5 _ =>
  (ptake 3 i5).bind fun i6 lonDegB =>
  PR.ofOption (rustParseNat 256 lonDegB) fun lon_deg =>
  (pdouble i6).bind fun i7 lon_min =>
  (pchar 44 i7).bind fun i8 _ =>
  (poneOf [69, 87] i8).bind fun i9 lon_dir =>
  let lat : ℚ := (lat_deg : ℚ) + lat_min.val / 60
  let lat := if lat_dir = 83 then -lat else lat
  let lon : ℚ := (lon_deg : ℚ) + lon_min.val / 60
  let lon := if lon_dir = 87 then -lon else lon
  .ok i9 (lat, lon)

/-- `parse_lat_lon`: `alt((map(tag(",,,"), |_| None), map(do_parse_lat_lon,
Some)))`. -/
def parse_lat_lon (i : List Nat) : PR (Option (ℚ × ℚ)) :=
  match ptag [44, 44, 44] i with
  | .ok r _ => .ok r none
  | .panic => .panic
  | .err =>
    match do_parse_lat_lon i with
    | .ok r v => .ok r (some v)
    | .err => .err
    | .panic => .panic

/-- `GgaData`; `f32` fields are stored as their exact ℚ value (Rust's `f32`
equality agrees with ℚ equality wherever both are defined). -/
structure GgaData where
  fix_time : Option NTime
  fix_type : Option FixType
  latitude : Option ℚ
  longitude : Option ℚ
  fix_satellites : Option Nat
  hdop : Option ℚ
  altitude : Option ℚ
  geoid_height : Option ℚ
deriving DecidableEq

/-- `map_res(take_until(","), parse_float_num::<f32>)`: the altitude /
geoid-height field parser of `do_parse_gga`. -/
def parse_float_field (i : List Nat) : PR ℚ :=
  (takeUntilByte 44 i).bind fun r tk =>
  PR.ofOption (rustParseFloat tk) fun v => .ok r v

/-- `do_parse_gga`: time(opt) ',' lat-lon(opt) ',' quality ',' sats(opt) ','
hdop(opt) ',' altitude(opt) ',' 'M'(opt) ',' geoid(opt) ',' 'M'(opt). -/
def do_parse_gga (i : List Nat) : PR GgaData :=
  (popt parse_hms i).bind fun i1 fix_time =>
  (pchar 44 i1).bind fun i2 _ =>
  (parse_lat_lon i2).bind fun i3 lat_lon =>
  (pchar 44 i3).bind fun i4 _ =>
  (poneOf [48, 49, 50, 51, 52, 53, 54, 55, 56] i4).bind fun i5 fix_quality =>
  (pchar 44 i5).bind fun i6 _ =>
  (popt (pnumber (2 ^ 32)) i6).bind fun i7 fix_satellites =>
  (pchar 44 i7).bind fun i8 _ =>
  (popt pdouble i8).bind fun i9 hdop =>
  (pchar 44 i9).bind fun i10 _ =>
  (popt parse_float_field i10).bind fun i11 altitude =>
  (pchar 44 i11).bind fun i12 _ =>
  (popt (pchar 77) i12).bind fun i13 _ =>
  (pchar 44 i13).bind fun i14 _ =>
  (popt parse_float_field i14).bind fun i15 geoid_height =>
  (pchar 44 i15).bind fun i16 _ =>
  (popt (pchar 77) i16).bind fun i17 _ =>
  .ok i17 {
    fix_time := fix_time,
    fix_type := some (FixType_from fix_quality),
    latitude := lat_lon.map Prod.fst,
    longitude := lat_lon.map Prod.snd,
    fix_satellites := fix_satellites,
    hdop := hdop.map RFloat.val,
    altitude := altitude,
    geoid_height := geoid_height }

/-- `parse_gga`: message-id guard, then `do_parse_gga` on the payload; the
unconsumed remainder is discarded (`.1`). -/
def parse_gga (s : NmeaSentence) : RRes GgaData :=
  if s.message_id ≠ [71, 71, 65] then .error .typeMismatch
  else
    match do_parse_gga s.data with
    | .ok _ d => .ok d
    | .err => .error .grammar
    | .panic => .panic

inductive RmcStatusOfFix where
  | Autonomous | Differential | Invalid
deriving DecidableEq

structure RmcData where
  fix_time : Option NTime
  fix_date : Option NDate
  status_of_fix : Option RmcStatusOfFix
  lat : Option ℚ
  lon : Option ℚ
  speed_over_ground : Option ℚ
  true_course : Option ℚ
deriving DecidableEq

/-- `parse_date`: 2-digit day, month and year; the closure rejects
month ∉ [1,12] and day ∉ [1,31], then calls `NaiveDate::from_ymd`, which
panics on a day that does not exist in the month. -/
def parse_date (i : List Nat) : PR NDate :=
  (ptake 2 i).bind fun i1 db =>
  PR.ofOption (rustParseNat 256 db) fun day =>
  (ptake 2 i1).bind fun i2 mb =>
  PR.ofOption (rustParseNat 256 mb) fun month =>
  (ptake 2 i2).bind fun i3 yb =>
  PR.ofOption (rustParseNat 256 yb) fun year =>
  if month < 1 ∨ month > 12 then .err
  else if day < 1 ∨ day > 31 then .err
  else
    match NaiveDate_from_ymd (year : Int) month day with
    | some d => .ok i3 d
    | none => .panic

/-- `do_parse_rmc`: time(opt) ',' status(A|D|V) ',' lat-lon(opt) ','
speed(opt) ',' course(opt) ',' date(opt) ','. -/
def do_parse_rmc (i : List Nat) : PR RmcData :=
  (popt parse_hms i).bind fun i1 fix_time =>
  (pchar 44 i1).bind fun i2 _ =>
  (poneOf [65, 68, 86] i2).bind fun i3 st =>
  (pchar 44 i3).bind fun i4 _ =>
  (parse_lat_lon i4).bind fun i5 lat_lon =>
  (pchar 44 i5).bind fun i6 _ =>
  (popt pdouble i6).bind fun i7 sog =>
  (pchar 44 i7).bind fun i8 _ =>
  (popt pdouble i8).bind fun i9 tc =>
  (pchar 44 i9).bind fun i10 _ =>
  (popt parse_date i10).bind fun i11 fix_date =>
  (pchar 44 i11).bind fun i12 _ =>
  match (if st = 65 then some RmcStatusOfFix.Autonomous
         else if st = 68 then some RmcStatusOfFix.Differential
         else if st = 86 then some RmcStatusOfFix.Invalid
         else none) with
  | none => .err
  | some sf =>
    .ok i12 {
      fix_time := fix_time,
      fix_date := fix_date,
      status_of_fix := some sf,
      lat := lat_lon.map Prod.fst,
      lon := lat_lon.map Prod.snd,
      speed_over_ground := sog.map RFloat.val,
      true_course := tc.map RFloat.val }

def parse_rmc (s : NmeaSentence) : RRes RmcData :=
  if s.message_id ≠ [82, 77, 67] then .error .typeMismatch
  else
    match do_parse_rmc s.data with
    | .ok _ d => .ok d
    | .err => .error .grammar
    | .panic => .panic

structure GsvData where
  gnss_type : GnssType
  number_of_sentences : Nat
  sentence_num : Nat
  sats_in_view : Nat
  sats_info : List (Option Satellite)
deriving DecidableEq

/-- `parse_gsv_sat_info`: PRN ',' elevation(opt) ',' azimuth(opt) ','
snr(opt), then `cond(rest_len > 0, char(','))`. -/
def parse_gsv_sat_info (i : List Nat) : PR Satellite :=
  (pnumber (2 ^ 32) i).bind fun i1 prn =>
  (pchar 44 i1).bind fun i2 _ =>
  (popt (pnumber (2 ^ 31)) i2).bind fun i3 elevation =>
  (pchar 44 i3).bind fun i4 _ =>
  (popt (pnumber (2 ^ 31)) i4).bind fun i5 azimuth =>
  (pchar 44 i5).bind fun i6 _ =>
  (popt (pnumber (2 ^ 31)) i6).bind fun i7 snr =>
  (if 0 < i7.length then
    (pchar 44 i7).bind fun i8 _ => .ok i8 ()
   else .ok i7 ()).bind fun i9 _ =>
  .ok i9 {
    gnss_type := .Galileo,
    prn := prn,
    elevation := elevation.map (fun v => (v : ℚ)),
    azimuth := azimuth.map (fun v => (v : ℚ)),
    snr := snr.map (fun v => (v : ℚ)) }

def do_parse_gsv (i : List Nat) : PR GsvData :=
  (pnumber (2 ^ 16) i).bind fun i1 number_of_sentences =>
  (pchar 44 i1).bind fun i2 _ =>
  (pnumber (2 ^ 16) i2).bind fun i3 sentence_num =>
  (pchar 44 i3).bind fun i4 _ =>
  (pnumber (2 ^ 16) i4).bind fun i5 sats_in_view =>
  (pchar 44 i5).bind fun i6 _ =>
  (popt parse_gsv_sat_info i6).bind fun i7 sat0 =>
  (popt parse_gsv_sat_info i7).bind fun i8 sat1 =>
  (popt parse_gsv_sat_info i8).bind fun i9 sat2 =>
  (popt parse_gsv_sat_info i9).bind fun i10 sat3 =>
  .ok i10 {
    gnss_type := .Galileo,
    number_of_sentences := number_of_sentences,
    sentence_num := sentence_num,
    sats_in_view := sats_in_view,
    sats_info := [sat0, sat1, sat2, sat3] }

/-- `parse_gsv`: message-id guard, talker-id → constellation (unknown talker
is an error), decode, then overwrite the constellation tag on the record and
every satellite. -/
def parse_gsv (s : NmeaSentence) : RRes GsvData :=
  if s.message_id ≠ [71, 83, 86] then .error .typeMismatch
  else
    match (if s.talker_id = [71, 80] then some GnssType.Gps
           else if s.talker_id = [71, 65] then some GnssType.Galileo
           else if s.talker_id = [71, 76] ∨ s.talker_id = [71, 78] then
             some GnssType.Glonass
           else none) with
    | none => .error .unknownGnss
    | some g =>
      match do_parse_gsv s.data with
      | .ok _ d =>
        .ok { d with
          gnss_type := g,
          sats_info :=
            d.sats_info.map (Option.map (fun st => { st with gnss_type := g })) }
      | .err => .error .grammar
      | .panic => .panic

inductive GsaMode1 where
  | Manual | Automatic
deriving DecidableEq

inductive GsaMode2 where
  | NoFix | Fix2D | Fix3D
deriving DecidableEq

structure GsaData where
  mode1 : GsaMode1
  mode2 : GsaMode2
  fix_sats_prn : List Nat
  pdop : Option ℚ
  hdop : Option ℚ
  vdop : Option ℚ
deriving DecidableEq

/-- The repeated element of `gsa_prn_fields_parse`:
`terminated(opt(number::<u32>), char(','))`. -/
def gsa_prn_field (i : List Nat) : PR (Option Nat) :=
  (popt (pnumber (2 ^ 32)) i).bind fun i1 v =>
  (pchar 44 i1).bind fun i2 _ => .ok i2 v

/-- nom `many0` of `gsa_prn_field`, with explicit fuel for termination; the
element parser consumes at least the terminating comma on every success, so
fuel `length + 1` is never exhausted. -/
def many0_prn : Nat → List Nat → PR (List (Option Nat))
  | 0, i => .ok i []
  | fuel + 1, i =>
    match gsa_prn_field i with
    | .err => .ok i []
    | .panic => .panic
    | .ok r a =>
      match many0_prn fuel r with
      | .ok r2 l => .ok r2 (a :: l)
      | .err => .err
      | .panic => .panic

def gsa_prn_fields_parse (i : List Nat) : PR (List (Option Nat)) :=
  many0_prn (i.length + 1) i

def GsaTail : Type :=
  List (Option Nat) × Option ℚ × Option ℚ × Option ℚ

/-- `do_parse_gsa_tail`: PRN fields then PDOP ',' HDOP ',' VDOP (all three
required by `float`). -/
def do_parse_gsa_tail (i : List Nat) : PR GsaTail :=
  (gsa_prn_fields_parse i).bind fun i1 prns =>
  (pdouble i1).bind fun i2 pdop =>
  (pchar 44 i2).bind fun i3 _ =>
  (pdouble i3).bind fun i4 hdop =>
  (pchar 44 i4).bind fun i5 _ =>
  (pdouble i5).bind fun i6 vdop =>
  .ok i6 (prns, some pdop.val, some hdop.val, some vdop.val)

def is_comma (x : Nat) : Bool := x = 44

/-- `do_parse_empty_gsa_tail`:
`value((vec![], None, None, None), all_consuming(take_while1(is_comma)))`. -/
def do_parse_empty_gsa_tail (i : List Nat) : PR GsaTail :=
  match all_consuming (take_while1 is_comma) i with
  | .ok r _ => .ok r ([], none, none, none)
  | .err => .err
  | .panic => .panic

/-- `do_parse_gsa`: mode1(M|A) ',' mode2(1|2|3) ',' then
`alt((do_parse_empty_gsa_tail, do_parse_gsa_tail))`; the PRN list in the
record is the `filter_map(identity)` compaction of the optional fields. -/
def do_parse_gsa (i : List Nat) : PR GsaData :=
  (poneOf [77, 65] i).bind fun i1 m1 =>
  (pchar 44 i1).bind fun i2 _ =>
  (poneOf [49, 50, 51] i2).bind fun i3 m2 =>
  (pchar 44 i3).bind fun i4 _ =>
  let tailP : PR GsaTail :=
    match do_parse_empty_gsa_tail i4 with
    | .ok r t => .ok r t
    | .panic => .panic
    | .err => do_parse_gsa_tail i4
  tailP.bind fun i5 tail =>
  .ok i5 {
    mode1 := if m1 = 77 then .Manual else .Automatic,
    mode2 := if m2 = 49 then .NoFix else if m2 = 50 then .Fix2D else .Fix3D,
    fix_sats_prn := tail.1.filterMap id,
    pdop := tail.2.1,
    hdop := tail.2.2.1,
    vdop := tail.2.2.2 }

def parse_gsa (s : NmeaSentence) : RRes GsaData :=
  if s.message_id ≠ [71, 83, 65] then .error .typeMismatch
  else
    match do_parse_gsa s.data with
    | .ok _ d => .ok d
    | .err => .error .grammar
    | .panic => .panic

structure VtgData where
  true_course : Option ℚ
  speed_over_ground : Option ℚ
deriving DecidableEq

/-- `do_parse_vtg`: course(opt) ',' 'T'(opt) ',' magnetic(opt, discarded) ','
'M'(opt) ',' knots(opt) ',' 'N'(opt) kph(opt) ',' 'K'(opt); the reported
speed prefers knots, else km/h divided by 1.852. -/
def do_parse_vtg (i : List Nat) : PR VtgData :=
  (popt pdouble i).bind fun i1 tc =>
  (pchar 44 i1).bind fun i2 _ =>
  (popt (pchar 84) i2).bind fun i3 _ =>
  (pchar 44 i3).bind fun i4 _ =>
  (popt pdouble i4).bind fun i5 _magn_course =>
  (pchar 44 i5).bind fun i6 _ =>
  (popt (pchar 77) i6).bind fun i7 _ =>
  (pchar 44 i7).bind fun i8 _ =>
  (popt pdouble i8).bind fun i9 knots =>
  (pchar 44 i9).bind fun i10 _ =>
  (popt (pchar 78) i10).bind fun i11 _ =>
  (popt pdouble i11).bind fun i12 kph =>
  (pchar 44 i12).bind fun i13 _ =>
  (popt (pchar 75) i13).bind fun i14 _ =>
  .ok i14 {
    true_course := tc.map RFloat.val,
    speed_over_ground :=
      match knots, kph with
      | some v, _ => some v.val
      | none, some v => some (v.val / (1852 / 1000 : ℚ))
      | none, none => none }

def parse_vtg (s : NmeaSentence) : RRes VtgData :=
  if s.message_id ≠ [86, 84, 71] then .error .typeMismatch
  else
    match do_parse_vtg s.data with
    | .ok _ d => .ok d
    | .err => .error .grammar
    | .panic => .panic

inductive PosSystemIndicator where
  | Autonomous | Differential | EstimatedMode | ManualInput | DataNotValid
deriving DecidableEq

/-- `impl From<char> for PosSystemIndicator`: A/D/E/M/N with a
`DataNotValid` catch-all. -/
def PosSystemIndicator_from (b : Nat) : PosSystemIndicator :=
  if b = 65 then .Autonomous
  else if b = 68 then .Differential
  else if b = 69 then .EstimatedMode
  else if b = 77 then .ManualInput
  else if b = 78 then .DataNotValid
  else .DataNotValid

structure GllData where
  latitude : ℚ
  longitude : ℚ
  fix_time : NTime
  mode : Option PosSystemIndicator
deriving DecidableEq

/-- `terminated(map(one_of("ADEM"), PosSystemIndicator::from), char(','))`:
the optional trailing mode indicator of a GLL sentence ('N' deliberately
absent from the set). -/
def gll_mode_indicator (j : List Nat) : PR PosSystemIndicator :=
  (poneOf [65, 68, 69, 77] j).bind fun j1 c =>
  (pchar 44 j1).bind fun j2 _ =>
  .ok j2 (PosSystemIndicator_from c)

/-- `do_parse_gll`: lat-lon (required form) ',' time, an ignored
`take_until(",")` span, ',' then the validity flag `char('A')` (anything
else, including 'V', is an error), ',' and the optional mode indicator. -/
def do_parse_gll (i : List Nat) : PR GllData :=
  (do_parse_lat_lon i).bind fun i1 ll =>
  (pchar 44 i1).bind fun i2 _ =>
  (parse_hms i2).bind fun i3 t =>
  (takeUntilByte 44 i3).bind fun i4 _ =>
  (pchar 44 i4).bind fun i5 _ =>
  (pchar 65 i5).bind fun i6 _ =>
  (pchar 44 i6).bind fun i7 _ =>
  (popt gll_mode_indicator i7).bind fun i8 mode =>
  .ok i8 { latitude := ll.1, longitude := ll.2, fix_time := t, mode := mode }

def parse_gll (s : NmeaSentence) : RRes GllData :=
  if s.message_id ≠ [71, 76, 76] then .error .typeMismatch
  else
    match do_parse_gll s.data with
    | .ok _ d => .ok d
    | .err => .error .grammar
    | .panic => .panic

/-- Modelled from the spec: the crate-root `SentenceType` id and its
`TryFrom<&[u8]>` conversion live outside `src/`.  Per spec §4.5/§6 the
dispatcher maps the six supported 3-byte ids to their decoders and every
other id to an "unsupported-marker carrying the raw 3-byte id", which is
explicitly not an error. -/
inductive SentenceType where
  | GGA | GSV | RMC | GSA | VTG | GLL
  | Other : List Nat → SentenceType
deriving DecidableEq

def SentenceType_try_from (id : List Nat) : SentenceType :=
  if id = [71, 71, 65] then .GGA
  else if id = [71, 83, 86] then .GSV
  else if id = [82, 77, 67] then .RMC
  else if id = [71, 83, 65] then .GSA
  else if id = [86, 84, 71] then .VTG
  else if id = [71, 76, 76] then .GLL
  else .Other id

inductive ParseResult where
  | GGA : GgaData → ParseResult
  | RMC : RmcData → ParseResult
  | GSV : GsvData → ParseResult
  | GSA : GsaData → ParseResult
  | VTG : VtgData → ParseResult
  | GLL : GllData → ParseResult
  | Unsupported : SentenceType → ParseResult
deriving DecidableEq

/-- `parse`: frame the sentence, compare the declared checksum with the
computed XOR fold, and only on equality dispatch by message id; a mismatch
returns the dedicated checksum-mismatch error without running any per-type
decoder. -/
def parse (xs : List Nat) : RRes ParseResult :=
  match parse_nmea_sentence xs with
  | .error e => .error e
  | .panic => .panic
  | .ok s =>
    if s.checksum = calc_checksum s then
      match SentenceType_try_from s.message_id with
      | .GGA =>
        match parse_gga s with
        | .ok d => .ok (.GGA d)
        | .error e => .error e
        | .panic => .panic
      | .GSV =>
        match parse_gsv s with
        | .ok d => .ok (.GSV d)
        | .error e => .error e
        | .panic => .panic
      | .RMC =>
        match parse_rmc s with
        | .ok d => .ok (.RMC d)
        | .error e => .error e
        | .panic => .panic
      | .GSA =>
        match parse_gsa s with
        | .ok d => .ok (.GSA d)
        | .error e => .error e
        | .panic => .panic
      | .VTG =>
        match parse_vtg s with
        | .ok d => .ok (.VTG d)
        | .error e => .error e
        | .panic => .panic
      | .GLL =>
        match parse_gll s with
        | .ok d => .ok (.GLL d)
        | .error e => .error e
        | .panic => .panic
      | .Other id => .ok (.Unsupported (.Other id))
    else .error .checksumMismatch

/-! ### Helper lemmas -/

theorem foldl_xor_init (l : List Nat) (a : Nat) :
    l.foldl Nat.xor a = a ^^^ l.foldl Nat.xor 0 := by
  induction l generalizing a with
  | nil => simp
  | cons x xs ih =>
    simp only [List.foldl_cons]
    have e1 : Nat.xor a x = a ^^^ x := rfl
    have e2 : Nat.xor 0 x = 0 ^^^ x := rfl
    rw [e1, e2, ih (a ^^^ x), ih (0 ^^^ x), Nat.zero_xor, Nat.xor_assoc]

theorem checksum_cons (x : Nat) (l : List Nat) :
    checksum (x :: l) = x ^^^ checksum l := by
  unfold checksum
  simp only [List.foldl_cons, Nat.zero_xor]
  have e : Nat.xor 0 x = x := Nat.zero_xor x
  rw [e]
  exact foldl_xor_init l x

theorem checksum_append (l1 l2 : List Nat) :
    checksum (l1 ++ l2) = checksum l1 ^^^ checksum l2 := by
  induction l1 with
  | nil => simp [checksum]
  | cons x xs ih =>
    rw [List.cons_append, checksum_cons, checksum_cons, ih, Nat.xor_assoc]

theorem checksum_set (l : List Nat) (j : Nat) (b : Nat) (h : j < l.length) :
    checksum (l.set j b) = checksum l ^^^ l.get ⟨j, h⟩ ^^^ b := by
  induction l generalizing j with
  | nil => simp at h
  | cons x xs ih =>
    have hcl : ∀ a b : Nat, a ^^^ (a ^^^ b) = b := fun a b => by
      rw [← Nat.xor_assoc, Nat.xor_self, Nat.zero_xor]
    cases j with
    | zero =>
      simp only [List.set, List.get, checksum_cons]
      simp [hcl, Nat.xor_comm]
    | succ k =>
      simp only [List.set, List.get, checksum_cons]
      rw [ih k (by simpa using h)]
      simp [Nat.xor_assoc]

/-! ### Claim C4 -/

/-- Claim C4: every input strictly longer than 102 bytes is rejected with the
oversized-input error before any tokenization is attempted (the length guard
is the first statement of `parse_nmea_sentence`), and `parse` propagates the
same error. -/
theorem oversized_input_rejected (xs : List Nat) (h : 102 < xs.length) :
    parse_nmea_sentence xs = .error .tooLong ∧ parse xs = .error .tooLong := by
  have h1 : parse_nmea_sentence xs = .error .tooLong := by
    unfold parse_nmea_sentence
    rw [if_pos h]
  refine ⟨h1, ?_⟩
  unfold parse
  rw [h1]

theorem oversized_input_rejected_witness :
    102 < (List.replicate 103 36).length ∧
      parse_nmea_sentence (List.replicate 103 36) = .error .tooLong ∧
      parse (List.replicate 103 36) = .error .tooLong :=
  ⟨by decide, oversized_input_rejected (List.replicate 103 36) (by decide)⟩

/-! ### Claim C2 -/

/-- Claim C2 (refuted: code bug): the time-of-day validation checks
hour < 24, minute < 60 and rejects negative seconds, but never checks
seconds < 60; on the framed, checksum-valid sentence `$GPGGA,125990,*50`
(time-of-day field `125990`, i.e. 12:59:90) the closure calls chrono's
`NaiveTime::from_hms_nano(12, 59, 90, 0)`, which panics, so `parse` panics
instead of returning an error value. -/
theorem parse_panics_on_seconds_overflow :
    parse_hms [49, 50, 53, 57, 57, 48, 44] = .panic ∧
      parse [36, 71, 80, 71, 71, 65, 44, 49, 50, 53, 57, 57, 48, 44, 42, 53, 48] =
        .panic :=
  ⟨by decide, by decide⟩

/-! ### Claim C3 -/

/-- Claim C3: whenever framing succeeds, the checksum matches, and the 3-byte
message id is none of the six supported kinds, `parse` returns `Ok` with the
`Unsupported` variant carrying that id — never an error.
(`SentenceType::try_from` lives outside `src/` and is modelled from the spec
as total.) -/
theorem unsupported_id_ok (xs : List Nat) (s : NmeaSentence)
    (hf : parse_nmea_sentence xs = .ok s)
    (hcs : s.checksum = calc_checksum s)
    (h1 : s.message_id ≠ [71, 71, 65]) (h2 : s.message_id ≠ [71, 83, 86])
    (h3 : s.message_id ≠ [82, 77, 67]) (h4 : s.message_id ≠ [71, 83, 65])
    (h5 : s.message_id ≠ [86, 84, 71]) (h6 : s.message_id ≠ [71, 76, 76]) :
    parse xs = .ok (.Unsupported (.Other s.message_id)) := by
  unfold parse
  rw [hf]
  simp only [if_pos hcs]
  unfold SentenceType_try_from
  rw [if_neg h1, if_neg h2, if_neg h3, if_neg h4, if_neg h5, if_neg h6]

theorem unsupported_id_ok_witness :
    parse [36, 71, 80, 90, 90, 90, 44, 102, 111, 111, 42, 48, 55] =
      .ok (.Unsupported (.Other [90, 90, 90])) :=
  unsupported_id_ok _ ⟨[71, 80], [90, 90, 90], [102, 111, 111], 7⟩
    (by decide) (by decide) (by decide) (by decide) (by decide) (by decide)
    (by decide) (by decide)

/-! ### Claim C1 -/

theorem pchar_cons_self (c : Nat) (xs : List Nat) : pchar c (c :: xs) = .ok xs c := by
  simp [pchar]

theorem ptake_two (a b : Nat) (r : List Nat) : ptake 2 (a :: b :: r) = .ok r [a, b] := by
  simp [ptake]

theorem ptake_three (a b c : Nat) (r : List Nat) :
    ptake 3 (a :: b :: c :: r) = .ok r [a, b, c] := by
  simp [ptake]

theorem takeUntil_data (data rest : List Nat) (h : 42 ∉ data) :
    takeUntilByte 42 (data ++ 42 :: rest) = .ok (42 :: rest) data := by
  induction data with
  | nil => simp [takeUntilByte]
  | cons x xs ih =>
    have hx : x ≠ 42 := by
      intro he
      subst he
      exact h (List.mem_cons_self 42 xs)
    have h2 : 42 ∉ xs := fun hm => h (List.mem_cons_of_mem _ hm)
    simp only [List.cons_append, takeUntilByte]
    have e : List.append xs (42 :: rest) = xs ++ 42 :: rest := rfl
    rw [if_neg hx, e, ih h2]

theorem not_mem_set :
    ∀ (l : List Nat) (j a b : Nat), a ∉ l → b ≠ a → a ∉ l.set j b := by
  intro l
  induction l with
  | nil => intro j a b _ _; simp
  | cons x xs ih =>
    intro j a b ha hb
    have hax : a ≠ x := by
      intro he
      subst he
      exact ha (List.mem_cons_self a xs)
    have haxs : a ∉ xs := fun hm => ha (List.mem_cons_of_mem _ hm)
    cases j with
    | zero =>
      intro hm
      simp only [List.set] at hm
      rcases List.mem_cons.mp hm with h1 | h1
      · exact hb h1.symm
      · exact haxs h1
    | succ k =>
      intro hm
      simp only [List.set] at hm
      rcases List.mem_cons.mp hm with h1 | h1
      · exact hax h1
      · exact ih k a b haxs hb h1

/-- A canonically framed sentence `'$' t1 t2 m1 m2 m3 ',' data '*' c1 c2`
with no `'*'` in the payload and a hex-decodable checksum frames to the
expected envelope. -/
theorem frame_canonical (t1 t2 m1 m2 m3 : Nat) (data : List Nat) (c1 c2 h : Nat)
    (hstar : 42 ∉ data) (hhex : parse_hex [c1, c2] = some h) :
    do_parse_nmea_sentence
        (36 :: t1 :: t2 :: m1 :: m2 :: m3 :: 44 :: (data ++ [42, c1, c2]))
      = .ok [] ⟨[t1, t2], [m1, m2, m3], data, h⟩ := by
  unfold do_parse_nmea_sentence parse_checksum
  rw [pchar_cons_self]
  simp only [PR.bind]
  rw [ptake_two]
  simp only [PR.bind]
  rw [ptake_three]
  simp only [PR.bind]
  rw [pchar_cons_self]
  simp only [PR.bind]
  have htu : takeUntilByte 42 (data ++ [42, c1, c2]) = .ok (42 :: [c1, c2]) data :=
    takeUntil_data data [c1, c2] hstar
  rw [htu]
  simp only [PR.bind]
  rw [pchar_cons_self]
  simp only [PR.bind]
  rw [ptake_two]
  simp only [PR.bind]
  rw [hhex]
  simp only [PR.ofOption, PR.bind]

/-- Claim C1 (amended): (1) `parse` succeeds only when the declared checksum
equals the XOR fold of talker ++ message ++ ',' ++ payload; (2) when the
computed XOR differs from the declared value, `parse` returns the
checksum-mismatch error, so no per-type grammar decoder runs; (3) for any
valid (framed, checksum-correct, ≤ 102 bytes) sentence, overwriting any
single payload byte with a different byte other than `'*'` yields the
checksum-mismatch failure.  (The `'*'` exception is forced by the
counterexample: a `'*'` re-frames the sentence.) -/
theorem checksum_gate :
    (∀ xs r, parse xs = .ok r →
      ∃ s, parse_nmea_sentence xs = .ok s ∧ s.checksum = calc_checksum s) ∧
    (∀ xs s, parse_nmea_sentence xs = .ok s → s.checksum ≠ calc_checksum s →
      parse xs = .error .checksumMismatch) ∧
    (∀ t1 t2 m1 m2 m3 c1 c2 h j b' (data : List Nat) (hj : j < data.length),
      (36 :: t1 :: t2 :: m1 :: m2 :: m3 :: 44 :: (data ++ [42, c1, c2])).length ≤ 102 →
      42 ∉ data →
      parse_hex [c1, c2] = some h →
      checksum ([t1, t2, m1, m2, m3, 44] ++ data) = h →
      b' ≠ data.get ⟨j, hj⟩ →
      b' ≠ 42 →
      parse (36 :: t1 :: t2 :: m1 :: m2 :: m3 :: 44 :: (data.set j b' ++ [42, c1, c2]))
        = .error .checksumMismatch) := by
  have xlc : ∀ a b c : Nat, a ^^^ b = a ^^^ c → b = c := by
    intro a b c hx
    have h2 := congrArg (fun z => a ^^^ z) hx
    simpa [← Nat.xor_assoc, Nat.xor_self, Nat.zero_xor] using h2
  refine ⟨?_, ?_, ?_⟩
  · intro xs r h
    cases hp : parse_nmea_sentence xs with
    | ok s =>
      refine ⟨s, rfl, ?_⟩
      by_cases hc : s.checksum = calc_checksum s
      · exact hc
      · exfalso
        have h2 : parse xs = .error .checksumMismatch := by
          unfold parse
          simp only [hp]
          rw [if_neg hc]
        rw [h2] at h
        exact RRes.noConfusion h
    | error e =>
      exfalso
      have h2 : parse xs = .error e := by
        unfold parse
        simp only [hp]
      rw [h2] at h
      exact RRes.noConfusion h
    | panic =>
      exfalso
      have h2 : parse xs = .panic := by
        unfold parse
        simp only [hp]
      rw [h2] at h
      exact RRes.noConfusion h
  · intro xs s hp hne
    unfold parse
    simp only [hp]
    rw [if_neg hne]
  · intro t1 t2 m1 m2 m3 c1 c2 h j b' data hj hlen hstar hhex hcs hb hbstar
    have hstar' : 42 ∉ data.set j b' := not_mem_set data j 42 b' hstar hbstar
    have hframe := frame_canonical t1 t2 m1 m2 m3 (data.set j b') c1 c2 h hstar' hhex
    have hlen' :
        ¬(36 :: t1 :: t2 :: m1 :: m2 :: m3 :: 44 ::
            (data.set j b' ++ [42, c1, c2])).length > 102 := by
      simp only [List.length_cons, List.length_append, List.length_set] at hlen ⊢
      omega
    have hsent :
        parse_nmea_sentence
            (36 :: t1 :: t2 :: m1 :: m2 :: m3 :: 44 :: (data.set j b' ++ [42, c1, c2]))
          = .ok ⟨[t1, t2], [m1, m2, m3], data.set j b', h⟩ := by
      unfold parse_nmea_sentence
      rw [if_neg hlen', hframe]
    have hne :
        (⟨[t1, t2], [m1, m2, m3], data.set j b', h⟩ : NmeaSentence).checksum ≠
          calc_checksum ⟨[t1, t2], [m1, m2, m3], data.set j b', h⟩ := by
      show h ≠ calc_checksum _
      unfold calc_checksum
      have e1 :
          ([t1, t2] : List Nat) ++ [m1, m2, m3] ++ [44] ++ data.set j b'
            = [t1, t2, m1, m2, m3, 44] ++ data.set j b' := by simp
      rw [e1, checksum_append, checksum_set data j b' hj]
      rw [checksum_append] at hcs
      intro heq
      have h2 : checksum data = checksum data ^^^ data.get ⟨j, hj⟩ ^^^ b' := by
        apply xlc (checksum [t1, t2, m1, m2, m3, 44])
        rw [hcs, heq]
      rw [Nat.xor_assoc] at h2
      have h3 : data.get ⟨j, hj⟩ ^^^ b' = 0 :=
        (xlc (checksum data) 0 (data.get ⟨j, hj⟩ ^^^ b')
          (by rw [Nat.xor_zero, ← h2])).symm
      have h5 : b' = data.get ⟨j, hj⟩ := by
        have h6 : data.get ⟨j, hj⟩ ^^^ (data.get ⟨j, hj⟩ ^^^ b') =
            data.get ⟨j, hj⟩ ^^^ 0 := by rw [h3]
        rw [← Nat.xor_assoc, Nat.xor_self, Nat.zero_xor, Nat.xor_zero] at h6
        exact h6
      exact hb h5
    unfold parse
    simp only [hsent]
    rw [if_neg hne]

theorem checksum_gate_witness :
    parse [36, 71, 80, 71, 71, 65, 44, 44, 44, 44, 44, 44, 49, 44, 44, 44, 44,
      44, 44, 44, 44, 42, 54, 54] = .error .checksumMismatch := by
  have e :
      (36 :: 71 :: 80 :: 71 :: 71 :: 65 :: 44 ::
        (([44, 44, 44, 44, 44, 48, 44, 44, 44, 44, 44, 44, 44, 44] : List Nat).set 5 49
          ++ [42, 54, 54]))
        = [36, 71, 80, 71, 71, 65, 44, 44, 44, 44, 44, 44, 49, 44, 44, 44, 44,
           44, 44, 44, 44, 42, 54, 54] := by decide
  rw [← e]
  exact checksum_gate.2.2 71 80 71 71 65 54 54 102 5 49
    [44, 44, 44, 44, 44, 48, 44, 44, 44, 44, 44, 44, 44, 44] (by decide)
    (by decide) (by decide) (by decide) (by decide) (by decide) (by decide)

/-- Claim C1 counterexample: `$GPGGA,,,,,,0,,,,,,,,*66` is a valid sentence
(it parses successfully, so its checksum matches), yet overwriting payload
byte 0 (input byte 7) with `'*'` re-frames the sentence — the new `'*'`
terminates the payload early and the following bytes `,,` fail the checksum
hex decode — so `parse` fails with a grammar error, not with the
checksum-mismatch error the claim promises for every single payload-byte
change. -/
theorem checksum_flip_star_counterexample :
    parse [36, 71, 80, 71, 71, 65, 44, 44, 44, 44, 44, 44, 48, 44, 44, 44, 44,
        44, 44, 44, 44, 42, 54, 54] =
      .ok (.GGA ⟨none, some .Invalid, none, none, none, none, none, none⟩) ∧
    ([36, 71, 80, 71, 71, 65, 44, 44, 44, 44, 44, 44, 48, 44, 44, 44, 44, 44,
        44, 44, 44, 42, 54, 54] : List Nat).set 7 42 =
      [36, 71, 80, 71, 71, 65, 44, 42, 44, 44, 44, 44, 48, 44, 44, 44, 44, 44,
        44, 44, 44, 42, 54, 54] ∧
    parse [36, 71, 80, 71, 71, 65, 44, 42, 44, 44, 44, 44, 48, 44, 44, 44, 44,
        44, 44, 44, 44, 42, 54, 54] = .error .grammar ∧
    NErr.grammar ≠ NErr.checksumMismatch :=
  ⟨by decide, by decide, by decide, by decide⟩

/-! ### Inversion lemmas for success of the combinators -/

theorem PR.bind_ok_inv {α β : Type} {p : PR α} {f : List Nat → α → PR β}
    {r : List Nat} {b : β} (h : p.bind f = .ok r b) :
    ∃ i a, p = .ok i a ∧ f i a = .ok r b := by
  cases p with
  | ok i a => exact ⟨i, a, rfl, h⟩
  | err => exact absurd h (by simp [PR.bind])
  | panic => exact absurd h (by simp [PR.bind])

theorem PR.discard_ok_inv {α β : Type} {p : PR α} {f : α → PR β}
    {r : List Nat} {b : β} (h : PR.discard p f = .ok r b) :
    ∃ u a, p = .ok u a ∧ f a = .ok r b := by
  cases p with
  | ok u a => exact ⟨u, a, rfl, h⟩
  | err => exact absurd h (by simp [PR.discard])
  | panic => exact absurd h (by simp [PR.discard])

theorem PR.ofOption_ok_inv {α β : Type} {o : Option α} {f : α → PR β}
    {r : List Nat} {b : β} (h : PR.ofOption o f = .ok r b) :
    ∃ a, o = some a ∧ f a = .ok r b := by
  cases o with
  | some a => exact ⟨a, rfl, h⟩
  | none => exact absurd h (by simp [PR.ofOption])

theorem popt_ok_inv {α : Type} {p : List Nat → PR α} {i r : List Nat}
    {v : Option α} (h : popt p i = .ok r v) :
    (∃ a, v = some a ∧ p i = .ok r a) ∨ (v = none ∧ r = i ∧ p i = .err) := by
  unfold popt at h
  cases hp : p i with
  | ok r2 a =>
    rw [hp] at h
    injection h with h1 h2
    exact Or.inl ⟨a, h2.symm, by rw [h1]⟩
  | err =>
    rw [hp] at h
    injection h with h1 h2
    exact Or.inr ⟨h2.symm, h1.symm, rfl⟩
  | panic =>
    rw [hp] at h
    exact absurd h (by simp)

theorem pchar_ok_inv {c : Nat} {i r : List Nat} {a : Nat}
    (h : pchar c i = .ok r a) : i = c :: r ∧ a = c := by
  cases i with
  | nil => exact absurd h (by simp [pchar])
  | cons x xs =>
    by_cases hx : x = c
    · subst hx
      rw [pchar_cons_self] at h
      injection h with h1 h2
      exact ⟨by rw [h1], h2.symm⟩
    · rw [show pchar c (x :: xs) = .err from by simp [pchar, hx]] at h
      exact absurd h (by simp)

theorem poneOf_ok_inv {s : List Nat} {i r : List Nat} {a : Nat}
    (h : poneOf s i = .ok r a) : i = a :: r ∧ a ∈ s := by
  cases i with
  | nil => exact absurd h (by simp [poneOf])
  | cons x xs =>
    by_cases hx : x ∈ s
    · rw [show poneOf s (x :: xs) = .ok xs x from by simp [poneOf, hx]] at h
      injection h with h1 h2
      subst h1
      subst h2
      exact ⟨rfl, hx⟩
    · rw [show poneOf s (x :: xs) = .err from by simp [poneOf, hx]] at h
      exact absurd h (by simp)

theorem ptake_ok_inv {n : Nat} {i r a : List Nat} (h : ptake n i = .ok r a) :
    a = i.take n ∧ r = i.drop n ∧ n ≤ i.length := by
  unfold ptake at h
  by_cases hn : n ≤ i.length
  · rw [if_pos hn] at h
    injection h with h1 h2
    exact ⟨h2.symm, h1.symm, hn⟩
  · rw [if_neg hn] at h
    exact absurd h (by simp)

/-! ### Claim C7 -/

/-- The decomposition that `do_parse_lat_lon` performs, together with the
claimed value equations: 2-digit latitude degrees, floating minutes and an
`N`/`S` hemisphere, 3-digit longitude degrees, floating minutes and an
`E`/`W` hemisphere, with decimal = degrees + minutes/60 negated exactly for
`'S'` / `'W'`. -/
def LatLonShape (i r : List Nat) (lat lon : ℚ) : Prop :=
  ∃ (i1 i2 i3 i4 i5 i6 i7 i8 : List Nat) (latDegB lonDegB : List Nat)
    (lat_deg lon_deg : Nat) (lat_min lon_min : RFloat) (lat_dir lon_dir : Nat),
    ptake 2 i = .ok i1 latDegB ∧ rustParseNat 256 latDegB = some lat_deg ∧
    pdouble i1 = .ok i2 lat_min ∧ pchar 44 i2 = .ok i3 44 ∧
    poneOf [78, 83] i3 = .ok i4 lat_dir ∧ pchar 44 i4 = .ok i5 44 ∧
    ptake 3 i5 = .ok i6 lonDegB ∧ rustParseNat 256 lonDegB = some lon_deg ∧
    pdouble i6 = .ok i7 lon_min ∧ pchar 44 i7 = .ok i8 44 ∧
    poneOf [69, 87] i8 = .ok r lon_dir ∧
    (lat_dir = 78 ∨ lat_dir = 83) ∧ (lon_dir = 69 ∨ lon_dir = 87) ∧
    lat = (if lat_dir = 83 then -((lat_deg : ℚ) + lat_min.val / 60)
           else (lat_deg : ℚ) + lat_min.val / 60) ∧
    lon = (if lon_dir = 87 then -((lon_deg : ℚ) + lon_min.val / 60)
           else (lon_deg : ℚ) + lon_min.val / 60)

/-- Claim C7: every successful position-field decode has the documented
shape — latitude = degrees + minutes/60, negated exactly when the hemisphere
letter is `'S'`, longitude likewise for `'W'` — and in the optional position
slot (GGA/RMC) a leading `",,,"` (with the fourth comma consumed by the
caller, so four consecutive empty fields) decodes to absence without any
numeric parse. -/
theorem lat_lon_formula :
    (∀ i r lat lon, do_parse_lat_lon i = .ok r (lat, lon) → LatLonShape i r lat lon) ∧
    (∀ rest, parse_lat_lon (44 :: 44 :: 44 :: rest) = .ok rest none) := by
  constructor
  · intro i r lat lon h
    unfold do_parse_lat_lon at h
    obtain ⟨i1, latDegB, h1, h⟩ := PR.bind_ok_inv h
    obtain ⟨lat_deg, h2, h⟩ := PR.ofOption_ok_inv h
    obtain ⟨i2, lat_min, h3, h⟩ := PR.bind_ok_inv h
    obtain ⟨i3, c3, h4, h⟩ := PR.bind_ok_inv h
    obtain ⟨i4, lat_dir, h5, h⟩ := PR.bind_ok_inv h
    obtain ⟨i5, c5, h6, h⟩ := PR.bind_ok_inv h
    obtain ⟨i6, lonDegB, h7, h⟩ := PR.bind_ok_inv h
    obtain ⟨lon_deg, h8, h⟩ := PR.ofOption_ok_inv h
    obtain ⟨i7, lon_min, h9, h⟩ := PR.bind_ok_inv h
    obtain ⟨i8, c8, h10, h⟩ := PR.bind_ok_inv h
    obtain ⟨i9, lon_dir, h11, h⟩ := PR.bind_ok_inv h
    simp only [] at h
    injection h with hre hval
    injection hval with hlat hlon
    obtain ⟨-, hc3⟩ := pchar_ok_inv h4
    obtain ⟨-, hc5⟩ := pchar_ok_inv h6
    obtain ⟨-, hc8⟩ := pchar_ok_inv h10
    obtain ⟨-, hlatmem⟩ := poneOf_ok_inv h5
    obtain ⟨-, hlonmem⟩ := poneOf_ok_inv h11
    subst hc3
    subst hc5
    subst hc8
    subst hre
    refine ⟨i1, i2, i3, i4, i5, i6, i7, i8, latDegB, lonDegB, lat_deg, lon_deg,
      lat_min, lon_min, lat_dir, lon_dir,
      h1, h2, h3, h4, h5, h6, h7, h8, h9, h10, h11, ?_, ?_, hlat.symm, hlon.symm⟩
    · simpa using hlatmem
    · simpa using hlonmem
  · intro rest
    rfl

theorem lat_lon_formula_witness :
    LatLonShape [48, 48, 48, 48, 44, 78, 44, 48, 48, 48, 48, 48, 44, 69] []
        (0 : ℚ) (0 : ℚ) ∧
      parse_lat_lon [44, 44, 44, 44] = .ok [44] none :=
  ⟨lat_lon_formula.1 _ [] _ _ (by
      norm_num +decide [do_parse_lat_lon, PR.bind, PR.ofOption, ptake, pdouble,
        stripSign, mantissaP, intTail, exponentP, pchar, poneOf, rustParseNat,
        digitsToNat, isDigit, List.takeWhile]),
    lat_lon_formula.2 [44]⟩

/-! ### Claims C8 and C6 (GLL) -/

/-- The GLL payload prefix `0000,N,00000,E,000000,` (zero position, midnight
fix time): everything up to the validity-flag byte. -/
def gllFlagPre : List Nat :=
  [48, 48, 48, 48, 44, 78, 44, 48, 48, 48, 48, 48, 44, 69, 44,
   48, 48, 48, 48, 48, 48, 44]

/-- Evaluating `do_parse_gll` on the concrete prefix reduces it to the
validity-flag check followed by the optional mode indicator, for every
suffix `z`. -/
theorem gll_flag_eval (z : List Nat) :
    do_parse_gll (gllFlagPre ++ z) =
      (pchar 65 z).bind fun i6 _ =>
      (pchar 44 i6).bind fun i7 _ =>
      (popt gll_mode_indicator i7).bind fun i8 mode =>
      .ok i8 ⟨0, 0, ⟨0, 0, 0, 0⟩, mode⟩ := by
  simp +decide [do_parse_gll, do_parse_lat_lon, parse_hms, gllFlagPre, PR.bind,
    PR.ofOption, PR.discard, ptake, pdouble, stripSign, mantissaP, intTail,
    exponentP, pchar, poneOf,
    rustParseNat, digitsToNat, isDigit, List.takeWhile, takeUntilByte,
    NaiveTime_from_hms_nano, List.foldl]

/-- A successful GLL decode necessarily read the byte `'A'` in the
validity-flag position: the input decomposes through lat/lon, the field
comma, the time of day, the ignored decimal span and its comma, and the
remaining input then starts with `'A'`. -/
def GllFlagShape (i : List Nat) : Prop :=
  ∃ i1 i2 i3 i4 i5 ll t sk,
    do_parse_lat_lon i = .ok i1 ll ∧ pchar 44 i1 = .ok i2 44 ∧
    parse_hms i2 = .ok i3 t ∧ takeUntilByte 44 i3 = .ok i4 sk ∧
    pchar 44 i4 = .ok i5 44 ∧ ∃ i6, i5 = 65 :: i6

/-- Claim C8: a GLL decode succeeds only when the validity-flag byte is
exactly `'A'`: every success reads `'A'` there; any other flag byte —
including the documented `'V'` — fails the whole decode with an error. -/
theorem gll_requires_valid_flag :
    (∀ i r g, do_parse_gll i = .ok r g → GllFlagShape i) ∧
    (∀ v rest, v ≠ 65 → do_parse_gll (gllFlagPre ++ v :: rest) = .err) ∧
    parse_gll ⟨[71, 80], [71, 76, 76], gllFlagPre ++ [86, 44], 0⟩ =
      .error .grammar ∧
    parse_gll ⟨[71, 80], [71, 76, 76], gllFlagPre ++ [65, 44], 0⟩ =
      .ok ⟨0, 0, ⟨0, 0, 0, 0⟩, none⟩ := by
  refine ⟨?_, ?_, ?_, ?_⟩
  · intro i r g h
    unfold do_parse_gll at h
    obtain ⟨i1, ll, h1, h⟩ := PR.bind_ok_inv h
    obtain ⟨i2, c2, h2, h⟩ := PR.bind_ok_inv h
    obtain ⟨i3, t, h3, h⟩ := PR.bind_ok_inv h
    obtain ⟨i4, sk, h4, h⟩ := PR.bind_ok_inv h
    obtain ⟨i5, c5, h5, h⟩ := PR.bind_ok_inv h
    obtain ⟨i6, c6, h6, h⟩ := PR.bind_ok_inv h
    obtain ⟨hsh6, -⟩ := pchar_ok_inv h6
    obtain ⟨-, hc2⟩ := pchar_ok_inv h2
    obtain ⟨-, hc5⟩ := pchar_ok_inv h5
    subst hc2
    subst hc5
    exact ⟨i1, i2, i3, i4, i5, ll, t, sk, h1, h2, h3, h4, h5, i6, hsh6⟩
  · intro v rest hv
    rw [gll_flag_eval]
    rw [show pchar 65 (v :: rest) = .err from by simp [pchar, hv]]
    rfl
  · have he := gll_flag_eval [86, 44]
    rw [show pchar 65 [86, 44] = .err from by simp [pchar]] at he
    unfold parse_gll
    rw [if_neg (by simp)]
    simp only []
    rw [he]
    rfl
  · have he := gll_flag_eval [65, 44]
    unfold parse_gll
    rw [if_neg (by simp)]
    simp only []
    rw [he]
    rfl

theorem gll_requires_valid_flag_witness :
    GllFlagShape (gllFlagPre ++ [65, 44]) ∧
      do_parse_gll (gllFlagPre ++ [86, 44]) = .err :=
  ⟨gll_requires_valid_flag.1 (gllFlagPre ++ [65, 44]) [] ⟨0, 0, ⟨0, 0, 0, 0⟩, none⟩
      (by rw [gll_flag_eval]; rfl),
    gll_requires_valid_flag.2.1 86 [44] (by decide)⟩

/-- Claim C6 (amended): an unrecognized trailing mode-indicator letter does
not fail the GLL decode, but the decoded record's mode field is left absent
(`None`) — it does not carry the data-not-valid tag.  In fact a successful
decode's mode is always either absent or one of the four tags produced by
`one_of("ADEM")`, so it is never `DataNotValid` (the `From<char>` catch-all
is unreachable from this decoder). -/
theorem gll_mode_absent :
    (∀ i r g, do_parse_gll i = .ok r g →
      g.mode = none ∨ g.mode = some .Autonomous ∨ g.mode = some .Differential ∨
        g.mode = some .EstimatedMode ∨ g.mode = some .ManualInput) ∧
    (∀ v rest, v ≠ 65 → v ≠ 68 → v ≠ 69 → v ≠ 77 →
      do_parse_gll (gllFlagPre ++ (65 :: 44 :: v :: rest)) =
        .ok (v :: rest) ⟨0, 0, ⟨0, 0, 0, 0⟩, none⟩) := by
  constructor
  · intro i r g h
    unfold do_parse_gll at h
    obtain ⟨i1, ll, h1, h⟩ := PR.bind_ok_inv h
    obtain ⟨i2, c2, h2, h⟩ := PR.bind_ok_inv h
    obtain ⟨i3, t, h3, h⟩ := PR.bind_ok_inv h
    obtain ⟨i4, sk, h4, h⟩ := PR.bind_ok_inv h
    obtain ⟨i5, c5, h5, h⟩ := PR.bind_ok_inv h
    obtain ⟨i6, c6, h6, h⟩ := PR.bind_ok_inv h
    obtain ⟨i7, c7, h7, h⟩ := PR.bind_ok_inv h
    obtain ⟨i8, mode, h8, h⟩ := PR.bind_ok_inv h
    injection h with hre hval
    have hg : g.mode = mode := by rw [← hval]
    rcases popt_ok_inv h8 with ⟨a, ha, hpa⟩ | ⟨hnone, -, -⟩
    · unfold gll_mode_indicator at hpa
      obtain ⟨j1, c, hc, hpa⟩ := PR.bind_ok_inv hpa
      obtain ⟨j2, cc, hcc, hpa⟩ := PR.bind_ok_inv hpa
      obtain ⟨-, hmem⟩ := poneOf_ok_inv hc
      injection hpa with hj hv
      rw [hg, ha, ← hv]
      have : c = 65 ∨ c = 68 ∨ c = 69 ∨ c = 77 := by simpa using hmem
      rcases this with rfl | rfl | rfl | rfl
      · exact Or.inr (Or.inl rfl)
      · exact Or.inr (Or.inr (Or.inl rfl))
      · exact Or.inr (Or.inr (Or.inr (Or.inl rfl)))
      · exact Or.inr (Or.inr (Or.inr (Or.inr rfl)))
    · rw [hg, hnone]
      exact Or.inl rfl
  · intro v rest h65 h68 h69 h77
    rw [gll_flag_eval]
    simp [pchar, popt, gll_mode_indicator, poneOf, PR.bind, h65, h68, h69, h77]

theorem gll_mode_absent_witness :
    ((⟨0, 0, ⟨0, 0, 0, 0⟩, none⟩ : GllData).mode = none ∨
      (⟨0, 0, ⟨0, 0, 0, 0⟩, none⟩ : GllData).mode = some .Autonomous ∨
      (⟨0, 0, ⟨0, 0, 0, 0⟩, none⟩ : GllData).mode = some .Differential ∨
      (⟨0, 0, ⟨0, 0, 0, 0⟩, none⟩ : GllData).mode = some .EstimatedMode ∨
      (⟨0, 0, ⟨0, 0, 0, 0⟩, none⟩ : GllData).mode = some .ManualInput) ∧
      do_parse_gll (gllFlagPre ++ (65 :: 44 :: 90 :: [])) =
        .ok [90] ⟨0, 0, ⟨0, 0, 0, 0⟩, none⟩ :=
  ⟨gll_mode_absent.1 (gllFlagPre ++ [65, 44]) [] ⟨0, 0, ⟨0, 0, 0, 0⟩, none⟩
      (by rw [gll_flag_eval]; rfl),
    gll_mode_absent.2 90 [] (by decide) (by decide) (by decide) (by decide)⟩

/-- Claim C6 counterexample: on a GLL payload whose trailing mode letter is
the unrecognized `'X'`, the decode succeeds but the record's mode field is
`None`, which is not the data-not-valid tag the claim promises. -/
theorem gll_unrecognized_mode_counterexample :
    do_parse_gll (gllFlagPre ++ [65, 44, 88]) = .ok [88] ⟨0, 0, ⟨0, 0, 0, 0⟩, none⟩ ∧
      (none : Option PosSystemIndicator) ≠ some .DataNotValid := by
  constructor
  · rw [gll_flag_eval]
    rfl
  · decide

/-! ### Claim C9 (GGA unit letters) -/

/-- The decoded record of the GGA payload `,,,,,0,,,5,M,7,` (and of its
unit-letter variants): invalid fix, altitude 5, geoid height 7. -/
def ggaRec57 : GgaData :=
  ⟨none, some .Invalid, none, none, none, none, some 5, some 7⟩

/-- GGA payload prefix `,,,,,0,,,5,` — everything up to the altitude-unit
slot. -/
def ggaAltUnitPre : List Nat :=
  [44, 44, 44, 44, 44, 48, 44, 44, 44, 53, 44]

/-- GGA payload prefix `,,,,,0,,,5,M,7,` — everything up to the
geoid-height-unit slot. -/
def ggaUnitPre : List Nat :=
  [44, 44, 44, 44, 44, 48, 44, 44, 44, 53, 44, 77, 44, 55, 44]

/-- Evaluating `do_parse_gga` on the concrete prefix up to the altitude-unit
slot, for every suffix `z`. -/
theorem gga_altunit_eval (z : List Nat) :
    do_parse_gga (ggaAltUnitPre ++ z) =
      (popt (pchar 77) z).bind fun i13 _ =>
      (pchar 44 i13).bind fun i14 _ =>
      (popt parse_float_field i14).bind fun i15 geoid_height =>
      (pchar 44 i15).bind fun i16 _ =>
      (popt (pchar 77) i16).bind fun i17 _ =>
      .ok i17 ⟨none, some .Invalid, none, none, none, none, some 5, geoid_height⟩ := by
  simp +decide [do_parse_gga, ggaAltUnitPre, parse_hms, PR.discard, intTail,
    parse_lat_lon, ptag,
    parse_float_field, takeUntilByte, rustParseFloat, stripSign, mantissaP,
    exponentP, PR.bind, PR.ofOption, ptake, pchar, poneOf, popt, pnumber, digit1,
    pdouble, rustParseNat, digitsToNat, isDigit, List.takeWhile, List.foldl,
    FixType_from]

/-- Evaluating `do_parse_gga` on the concrete prefix up to the
geoid-height-unit slot, for every suffix `z`. -/
theorem gga_unit_eval (z : List Nat) :
    do_parse_gga (ggaUnitPre ++ z) =
      (popt (pchar 77) z).bind fun i17 _ => .ok i17 ggaRec57 := by
  simp +decide [do_parse_gga, ggaUnitPre, ggaRec57, parse_hms, PR.discard,
    intTail, parse_lat_lon, ptag,
    parse_float_field, takeUntilByte, rustParseFloat, stripSign, mantissaP,
    exponentP, PR.bind, PR.ofOption, ptake, pchar, poneOf, popt, pnumber, digit1,
    pdouble, rustParseNat, digitsToNat, isDigit, List.takeWhile, List.foldl,
    FixType_from]

/-- Claim C9 (amended): the unit letters are never semantically validated
and never affect any field of the decoded record, but only `'M'` (or an
empty slot) is actually consumed: (1) the altitude-unit slot with `'M'` and
with an empty slot produce the same record; (2) any byte other than `'M'`
and `','` in the altitude-unit slot fails the decode (the following comma is
not found), refuting "any unit letter is accepted"; (3) in the trailing
geoid-height-unit slot a non-`'M'` byte is left unconsumed and the decode
still succeeds, with a record independent of that byte. -/
theorem gga_unit_letters :
    (do_parse_gga (ggaAltUnitPre ++ [77, 44, 55, 44, 77]) = .ok [] ggaRec57 ∧
      do_parse_gga (ggaAltUnitPre ++ [44, 55, 44, 77]) = .ok [] ggaRec57) ∧
    (∀ u rest, u ≠ 77 → u ≠ 44 →
      do_parse_gga (ggaAltUnitPre ++ u :: rest) = .err) ∧
    (∀ u rest, u ≠ 77 →
      do_parse_gga (ggaUnitPre ++ u :: rest) = .ok (u :: rest) ggaRec57 ∧
        do_parse_gga (ggaUnitPre ++ 77 :: rest) = .ok rest ggaRec57) := by
  refine ⟨⟨?_, ?_⟩, ?_, ?_⟩
  · rw [show ggaAltUnitPre ++ [77, 44, 55, 44, 77] = ggaUnitPre ++ [77] from rfl,
      gga_unit_eval]
    rfl
  · rw [gga_altunit_eval]
    rfl
  · intro u rest h77 h44
    rw [gga_altunit_eval]
    rw [show popt (pchar 77) (u :: rest) = .ok (u :: rest) none from by
      simp [popt, pchar, h77]]
    simp only [PR.bind]
    rw [show pchar 44 (u :: rest) = .err from by simp [pchar, h44]]
  · intro u rest h77
    constructor
    · rw [gga_unit_eval]
      rw [show popt (pchar 77) (u :: rest) = .ok (u :: rest) none from by
        simp [popt, pchar, h77]]
      rfl
    · rw [gga_unit_eval]
      rfl

theorem gga_unit_letters_witness :
    do_parse_gga (ggaAltUnitPre ++ (90 : Nat) :: []) = .err ∧
      do_parse_gga (ggaUnitPre ++ (81 : Nat) :: []) = .ok [81] ggaRec57 :=
  ⟨(gga_unit_letters.2.1 90 [] (by decide) (by decide)),
    (gga_unit_letters.2.2 81 [] (by decide)).1⟩

/-- Claim C9 counterexample: with `'X'` in the altitude-unit slot the GGA
decode fails (the comma after the unit slot is not found), while the same
payload with `'M'` decodes fine — so "any unit letter in those two positions
is accepted, the decode succeeds" is false. -/
theorem gga_alt_unit_counterexample :
    do_parse_gga [44, 44, 44, 44, 44, 48, 44, 44, 44, 53, 44, 88, 44, 55, 44, 77] =
      .err ∧
    do_parse_gga [44, 44, 44, 44, 44, 48, 44, 44, 44, 53, 44, 77, 44, 55, 44, 77] =
      .ok [] ggaRec57 := by
  constructor
  · rw [show ([44, 44, 44, 44, 44, 48, 44, 44, 44, 53, 44, 88, 44, 55, 44, 77] : List Nat)
        = ggaAltUnitPre ++ [88, 44, 55, 44, 77] from rfl, gga_altunit_eval]
    rfl
  · rw [show ([44, 44, 44, 44, 44, 48, 44, 44, 44, 53, 44, 77, 44, 55, 44, 77] : List Nat)
        = ggaUnitPre ++ [77] from rfl, gga_unit_eval]
    rfl

/-! ### Claim C5 (GSA) -/

theorem empty_gsa_tail_inv {i r : List Nat} {t : GsaTail}
    (h : do_parse_empty_gsa_tail i = .ok r t) :
    r = [] ∧ t = ([], none, none, none) ∧ i ≠ [] ∧ ∀ x ∈ i, x = 44 := by
  simp only [do_parse_empty_gsa_tail, all_consuming, take_while1] at h
  by_cases he : (i.takeWhile is_comma).isEmpty = true
  · rw [if_pos he] at h
    exact absurd h (by simp)
  · rw [if_neg he] at h
    cases hd : List.drop (i.takeWhile is_comma).length i with
    | cons y ys =>
      rw [hd] at h
      exact absurd h (by simp)
    | nil =>
      rw [hd] at h
      simp only [] at h
      injection h with h1 h2
      have hlen : i.length ≤ (i.takeWhile is_comma).length := by
        by_contra hcon
        push_neg at hcon
        have := List.drop_eq_nil_iff.mp hd
        omega
      have htw : i.takeWhile is_comma = i :=
        (List.takeWhile_prefix is_comma).eq_of_length
          (Nat.le_antisymm (List.takeWhile_prefix is_comma).length_le hlen)
      have hall : ∀ x ∈ i, x = 44 := by
        intro x hx
        have := List.takeWhile_eq_self_iff.mp htw x hx
        simpa [is_comma] using this
      have hne : i ≠ [] := by
        intro hnil
        subst hnil
        simp at he
      exact ⟨h1.symm, h2.symm, hne, hall⟩

theorem empty_gsa_tail_of_commas (i : List Nat) (hne : i ≠ [])
    (hall : ∀ x ∈ i, x = 44) :
    do_parse_empty_gsa_tail i = .ok [] ([], none, none, none) := by
  have htw : i.takeWhile is_comma = i :=
    List.takeWhile_eq_self_iff.mpr (fun a ha => by simp [is_comma, hall a ha])
  simp only [do_parse_empty_gsa_tail, all_consuming, take_while1, htw]
  rw [if_neg (by simpa [List.isEmpty_iff] using hne)]
  rw [List.drop_length]

/-- The decomposition a successful GSA decode performs: mode1, mode2, then
either the all-comma empty tail (no PRNs, no DOPs) or the full tail (the
variable-length optional-PRN list followed by all three DOP values), with
the record's PRN list the in-order compaction `filter_map(id)` of the
optional PRN fields.  The two branches are exclusive: the full tail is only
tried when the tail is not a nonempty all-comma span. -/
def GsaShape (i r : List Nat) (g : GsaData) : Prop :=
  ∃ m1 m2 tail,
    i = m1 :: 44 :: m2 :: 44 :: tail ∧ (m1 = 77 ∨ m1 = 65) ∧
    (m2 = 49 ∨ m2 = 50 ∨ m2 = 51) ∧
    ((tail ≠ [] ∧ (∀ x ∈ tail, x = 44) ∧ r = [] ∧ g.fix_sats_prn = [] ∧
        g.pdop = none ∧ g.hdop = none ∧ g.vdop = none) ∨
      (¬(tail ≠ [] ∧ ∀ x ∈ tail, x = 44) ∧
        ∃ optPrns i1 pd i2 i3 hd i4 i5 vd,
          gsa_prn_fields_parse tail = .ok i1 optPrns ∧
          pdouble i1 = .ok i2 pd ∧ pchar 44 i2 = .ok i3 44 ∧
          pdouble i3 = .ok i4 hd ∧ pchar 44 i4 = .ok i5 44 ∧
          pdouble i5 = .ok r vd ∧
          g.fix_sats_prn = optPrns.filterMap id ∧
          g.pdop = some pd.val ∧ g.hdop = some hd.val ∧ g.vdop = some vd.val))

/-- `"7,"` repeated `n` times: a run of `n` present PRN fields. -/
def prnRep : Nat → List Nat
  | 0 => []
  | n + 1 => 55 :: 44 :: prnRep n

/-- The DOP tail `1.0,2.0,3.0`. -/
def gsaDops : List Nat := [49, 46, 48, 44, 50, 46, 48, 44, 51, 46, 48]

theorem prnRep_length (n : Nat) : (prnRep n).length = 2 * n := by
  induction n with
  | zero => rfl
  | succ n ih => simp [prnRep, ih]; omega

theorem gsa_prn_field_rep (w : List Nat) :
    gsa_prn_field (55 :: 44 :: w) = .ok w (some 7) := rfl

theorem gsa_prn_field_dops : gsa_prn_field gsaDops = .err := rfl

theorem many0_prn_rep :
    ∀ n fuel (i : List Nat), gsa_prn_field i = .err → n < fuel →
      many0_prn fuel (prnRep n ++ i) = .ok i (List.replicate n (some 7)) := by
  intro n
  induction n with
  | zero =>
    intro fuel i hi hf
    cases fuel with
    | zero => omega
    | succ f =>
      simp [prnRep, many0_prn, hi]
  | succ n ih =>
    intro fuel i hi hf
    cases fuel with
    | zero => omega
    | succ f =>
      have hstep : gsa_prn_field (prnRep (n + 1) ++ i) = .ok (prnRep n ++ i) (some 7) := by
        rw [show prnRep (n + 1) ++ i = 55 :: 44 :: (prnRep n ++ i) from rfl]
        exact gsa_prn_field_rep _
      simp only [many0_prn, hstep, ih f i hi (by omega)]
      simp [List.replicate_succ]

theorem do_parse_gsa_front (w : List Nat) :
    do_parse_gsa (65 :: 44 :: 51 :: 44 :: w) =
      (match do_parse_empty_gsa_tail w with
        | PR.ok r t => PR.ok r t
        | PR.panic => PR.panic
        | PR.err => do_parse_gsa_tail w).bind fun i5 tail =>
        .ok i5 ⟨.Automatic, .Fix3D, tail.1.filterMap id, tail.2.1, tail.2.2.1,
          tail.2.2.2⟩ := rfl

theorem filterMap_id_replicate_some (n : Nat) (a : Nat) :
    (List.replicate n (some a)).filterMap id = List.replicate n a := by
  induction n with
  | zero => rfl
  | succ n ih => simp [List.replicate_succ, ih]

/-- Claim C5: (1) every successful GSA decode has the `GsaShape`
decomposition — the PRN list is the compact in-order `filter_map(id)` of the
optional PRN fields, and PDOP/HDOP/VDOP are all-or-nothing: either all three
present (full tail), or the tail is a nonempty all-comma span and all three
are absent with an empty PRN list; the full tail only runs when the
all-comma branch fails.  (2) There is no upper bound of 12 PRN fields: for
every `n`, a GSA payload with `n` present PRN fields decodes with a PRN list
of length `n`. -/
theorem gsa_tail_all_or_nothing :
    (∀ i r g, do_parse_gsa i = .ok r g → GsaShape i r g) ∧
    (∀ n, ∃ r g,
      do_parse_gsa ([65, 44, 51, 44] ++ (prnRep n ++ gsaDops)) = .ok r g ∧
      g.fix_sats_prn = List.replicate n 7 ∧ g.pdop.isSome ∧ g.hdop.isSome ∧
      g.vdop.isSome ∧ g.mode1 = .Automatic ∧ g.mode2 = .Fix3D) := by
  constructor
  · intro i r g h
    unfold do_parse_gsa at h
    obtain ⟨i1, m1, h1, h⟩ := PR.bind_ok_inv h
    obtain ⟨i2, c2, h2, h⟩ := PR.bind_ok_inv h
    obtain ⟨i3, m2, h3, h⟩ := PR.bind_ok_inv h
    obtain ⟨i4, c4, h4, h⟩ := PR.bind_ok_inv h
    obtain ⟨hsh1, hm1⟩ := poneOf_ok_inv h1
    obtain ⟨hsh2, -⟩ := pchar_ok_inv h2
    obtain ⟨hsh3, hm2⟩ := poneOf_ok_inv h3
    obtain ⟨hsh4, -⟩ := pchar_ok_inv h4
    refine ⟨m1, m2, i4, ?_, by simpa using hm1, by simpa using hm2, ?_⟩
    · rw [hsh1, hsh2, hsh3, hsh4]
    simp only [] at h
    cases he : do_parse_empty_gsa_tail i4 with
    | panic =>
      rw [he] at h
      exact absurd h (by simp [PR.bind])
    | ok r0 t0 =>
      rw [he] at h
      simp only [PR.bind] at h
      obtain ⟨hr0, ht0, hne, hall⟩ := empty_gsa_tail_inv he
      subst hr0
      subst ht0
      injection h with hre hval
      refine Or.inl ⟨hne, hall, hre.symm, ?_, ?_, ?_, ?_⟩ <;> rw [← hval]
        <;> rfl
    | err =>
      rw [he] at h
      simp only [PR.bind] at h
      obtain ⟨i5, tail, ht, h⟩ := PR.bind_ok_inv h
      injection h with hre hval
      refine Or.inr ⟨?_, ?_⟩
      · rintro ⟨hne, hall⟩
        rw [empty_gsa_tail_of_commas i4 hne hall] at he
        exact absurd he (by simp)
      · unfold do_parse_gsa_tail at ht
        obtain ⟨j1, optPrns, hp1, ht⟩ := PR.bind_ok_inv ht
        obtain ⟨j2, pd, hp2, ht⟩ := PR.bind_ok_inv ht
        obtain ⟨j3, c3, hp3, ht⟩ := PR.bind_ok_inv ht
        obtain ⟨j4, hd, hp4, ht⟩ := PR.bind_ok_inv ht
        obtain ⟨j5, c5, hp5, ht⟩ := PR.bind_ok_inv ht
        obtain ⟨j6, vd, hp6, ht⟩ := PR.bind_ok_inv ht
        obtain ⟨-, hc3⟩ := pchar_ok_inv hp3
        obtain ⟨-, hc5⟩ := pchar_ok_inv hp5
        subst hc3
        subst hc5
        injection ht with htr htv
        subst htr
        subst hre
        refine ⟨optPrns, j1, pd, j2, j3, hd, j4, j5, vd,
          hp1, hp2, hp3, hp4, hp5, hp6, ?_, ?_, ?_, ?_⟩ <;>
          rw [← hval, ← htv] <;> rfl
  · intro n
    have hempty : do_parse_empty_gsa_tail (prnRep n ++ gsaDops) = .err := by
      cases n with
      | zero => rfl
      | succ k => rfl
    have hprns : gsa_prn_fields_parse (prnRep n ++ gsaDops) =
        .ok gsaDops (List.replicate n (some 7)) := by
      unfold gsa_prn_fields_parse
      exact many0_prn_rep n _ _ gsa_prn_field_dops
        (by rw [List.length_append, prnRep_length]; simp [gsaDops]; omega)
    have htail : do_parse_gsa_tail (prnRep n ++ gsaDops) =
        .ok [] (List.replicate n (some 7), some 1, some 2, some 3) := by
      unfold do_parse_gsa_tail
      rw [hprns]
      simp only [PR.bind]
      norm_num [pdouble, stripSign, mantissaP, intTail, exponentP, PR.bind, pchar,
        gsaDops, digitsToNat, isDigit, List.takeWhile, List.foldl]
    refine ⟨[], ⟨.Automatic, .Fix3D, List.replicate n 7, some 1, some 2, some 3⟩,
      ?_, rfl, rfl, rfl, rfl, rfl, rfl⟩
    rw [show ([65, 44, 51, 44] : List Nat) ++ (prnRep n ++ gsaDops)
        = 65 :: 44 :: 51 :: 44 :: (prnRep n ++ gsaDops) from rfl]
    rw [do_parse_gsa_front]
    simp only [hempty, htail, PR.bind]
    simp [filterMap_id_replicate_some]

theorem gsa_tail_all_or_nothing_witness :
    GsaShape [77, 44, 49, 44, 44, 44] [] ⟨.Manual, .NoFix, [], none, none, none⟩ ∧
      (∃ r g,
        do_parse_gsa ([65, 44, 51, 44] ++ (prnRep 14 ++ gsaDops)) = .ok r g ∧
        g.fix_sats_prn = List.replicate 14 7 ∧ g.pdop.isSome ∧ g.hdop.isSome ∧
        g.vdop.isSome ∧ g.mode1 = .Automatic ∧ g.mode2 = .Fix3D) :=
  ⟨gsa_tail_all_or_nothing.1 [77, 44, 49, 44, 44, 44] []
      ⟨.Manual, .NoFix, [], none, none, none⟩ (by rfl),
    gsa_tail_all_or_nothing.2 14⟩

/-! ### Claim C10: append-stability of the GGA decoder

A successful parse that stopped at a delimiter inside the input is
insensitive to bytes appended after the input.  The only combinators whose
behaviour at the very end of the input could change are the maximal-munch
ones (`digit1`, `double`); in `do_parse_gga` every such parser is followed
by a mandatory `char(',')`, so its remaining input always starts with a
comma and the munch is anchored. -/

theorem takeWhile_append_of_ne {p : Nat → Bool} {l : List Nat} (t : List Nat)
    (h : l.takeWhile p ≠ l) : (l ++ t).takeWhile p = l.takeWhile p := by
  induction l with
  | nil => exact absurd rfl h
  | cons x xs ih =>
    by_cases hp : p x
    · simp only [List.cons_append, List.takeWhile_cons, hp, if_true] at h ⊢
      have : xs.takeWhile p ≠ xs := fun he => h (by rw [he])
      rw [ih this]
    · simp [List.takeWhile_cons, hp]

theorem takeWhile_ne_of_drop_ne_nil {p : Nat → Bool} {l : List Nat}
    (h : List.drop (l.takeWhile p).length l ≠ []) : l.takeWhile p ≠ l := by
  intro he
  rw [he, List.drop_length] at h
  exact h rfl

theorem takeWhile_length_le (p : Nat → Bool) (l : List Nat) :
    (l.takeWhile p).length ≤ l.length :=
  (List.takeWhile_prefix p).length_le

theorem takeWhile_append_drop_stable {p : Nat → Bool} {l : List Nat} (t : List Nat)
    (h : List.drop (l.takeWhile p).length l ≠ []) :
    (l ++ t).takeWhile p = l.takeWhile p ∧
      List.drop ((l ++ t).takeWhile p).length (l ++ t) =
        List.drop (l.takeWhile p).length l ++ t := by
  have h1 : (l ++ t).takeWhile p = l.takeWhile p :=
    takeWhile_append_of_ne t (takeWhile_ne_of_drop_ne_nil h)
  refine ⟨h1, ?_⟩
  rw [h1, List.drop_append_of_le_length (takeWhile_length_le p l)]

theorem pchar_append {c : Nat} {i r : List Nat} {a : Nat} (t : List Nat)
    (h : pchar c i = .ok r a) : pchar c (i ++ t) = .ok (r ++ t) a := by
  obtain ⟨hi, ha⟩ := pchar_ok_inv h
  subst hi
  subst ha
  exact pchar_cons_self _ (r ++ t)

theorem ptake_append {n : Nat} {i r a : List Nat} (t : List Nat)
    (h : ptake n i = .ok r a) : ptake n (i ++ t) = .ok (r ++ t) a := by
  obtain ⟨ha, hr, hn⟩ := ptake_ok_inv h
  subst ha
  subst hr
  unfold ptake
  rw [if_pos (by simp only [List.length_append]; omega)]
  rw [List.take_append_of_le_length hn, List.drop_append_of_le_length hn]

theorem takeUntilByte_append {c : Nat} {i r a : List Nat} (t : List Nat)
    (h : takeUntilByte c i = .ok r a) :
    takeUntilByte c (i ++ t) = .ok (r ++ t) a := by
  induction i generalizing a with
  | nil => exact absurd h (by simp [takeUntilByte])
  | cons x xs ih =>
    by_cases hx : x = c
    · subst hx
      simp only [takeUntilByte, if_pos rfl] at h
      injection h with h1 h2
      subst h1
      subst h2
      simp [takeUntilByte]
    · simp only [takeUntilByte, if_neg hx] at h
      cases hr : takeUntilByte c xs with
      | ok r2 tk =>
        rw [hr] at h
        injection h with h1 h2
        subst h1
        subst h2
        simp only [List.cons_append, takeUntilByte, if_neg hx]
        rw [show List.append xs t = xs ++ t from rfl, ih hr]
      | err =>
        rw [hr] at h
        exact absurd h (by simp)
      | panic =>
        rw [hr] at h
        exact absurd h (by simp)

theorem poneOf_append {s i r : List Nat} {a : Nat} (t : List Nat)
    (h : poneOf s i = .ok r a) : poneOf s (i ++ t) = .ok (r ++ t) a := by
  obtain ⟨hi, ha⟩ := poneOf_ok_inv h
  subst hi
  simp [poneOf, ha]

theorem digit1_append {i r a : List Nat} (t : List Nat)
    (h : digit1 i = .ok r a) (hr : r ≠ []) :
    digit1 (i ++ t) = .ok (r ++ t) a := by
  simp only [digit1] at h ⊢
  by_cases he : (i.takeWhile isDigit).isEmpty = true
  · rw [if_pos he] at h
    exact absurd h (by simp)
  · rw [if_neg he] at h
    injection h with h1 h2
    have htw : (i ++ t).takeWhile isDigit = i.takeWhile isDigit :=
      takeWhile_append_of_ne t (takeWhile_ne_of_drop_ne_nil (by rw [h1]; exact hr))
    rw [htw, if_neg he, List.drop_append_of_le_length (takeWhile_length_le isDigit i),
      h1, h2]

theorem pnumber_append {b : Nat} {i r : List Nat} {v : Nat} (t : List Nat)
    (h : pnumber b i = .ok r v) (hr : r ≠ []) :
    pnumber b (i ++ t) = .ok (r ++ t) v := by
  unfold pnumber at h ⊢
  obtain ⟨i1, ds, h1, h⟩ := PR.bind_ok_inv h
  obtain ⟨w, hw, h⟩ := PR.ofOption_ok_inv h
  injection h with h2 h3
  subst h2
  subst h3
  rw [digit1_append t h1 hr]
  simp only [PR.bind, hw, PR.ofOption]

theorem pnumber_comma (b : Nat) (xs : List Nat) : pnumber b (44 :: xs) = .err := rfl

theorem pdouble_comma (xs : List Nat) : pdouble (44 :: xs) = .err := rfl

theorem pchar77_comma (xs : List Nat) : pchar 77 (44 :: xs) = .err := rfl

theorem parse_hms_comma (xs : List Nat) : parse_hms (44 :: xs) = .err := by
  cases xs with
  | nil => rfl
  | cons y ys =>
    unfold parse_hms
    rw [ptake_two]
    simp only [PR.bind]
    rfl

theorem stripSign_append {i : List Nat} (t : List Nat) (hne : i ≠ []) :
    stripSign (i ++ t) = ((stripSign i).1, (stripSign i).2 ++ t) := by
  cases i with
  | nil => exact absurd rfl hne
  | cons x xs =>
    simp only [List.cons_append, stripSign]
    split_ifs <;> rfl

theorem intTail_append {ip : ℚ} {i r : List Nat} {a : ℚ} (t : List Nat)
    (h : intTail ip i = .ok r a) (hr : r ≠ []) :
    intTail ip (i ++ t) = .ok (r ++ t) a := by
  cases i with
  | nil =>
    simp only [intTail] at h
    injection h with h1 h2
    exact absurd h1.symm hr
  | cons y ys =>
    simp only [intTail] at h
    by_cases hy : y = 46
    · subst hy
      rw [if_pos (rfl : (46 : Nat) = 46)] at h
      injection h with h1 h2
      have hysne : List.drop (ys.takeWhile isDigit).length ys ≠ [] := by
        rw [h1]; exact hr
      have htw2 : (ys ++ t).takeWhile isDigit = ys.takeWhile isDigit :=
        takeWhile_append_of_ne t (takeWhile_ne_of_drop_ne_nil hysne)
      simp only [List.cons_append, intTail, if_pos (rfl : (46 : Nat) = 46)]
      rw [htw2, List.drop_append_of_le_length (takeWhile_length_le isDigit ys),
        h1, h2]
      exact if_pos trivial
    · rw [if_neg hy] at h
      injection h with h1 h2
      simp only [List.cons_append, intTail, if_neg hy]
      rw [← h1, ← h2]
      simp

theorem mantissaP_append {i r : List Nat} {a : ℚ} (t : List Nat)
    (h : mantissaP i = .ok r a) (hr : r ≠ []) :
    mantissaP (i ++ t) = .ok (r ++ t) a := by
  by_cases he : (i.takeWhile isDigit).isEmpty = true
  · -- no leading digits: the `'.' digit1` branch
    rcases i with - | ⟨x, r2⟩
    · exact absurd h (by simp [mantissaP])
    · by_cases hx : x = 46
      · subst hx
        have hd46 : isDigit 46 = false := rfl
        by_cases hf : (r2.takeWhile isDigit).isEmpty = true
        · exact absurd h (by simp [mantissaP, List.takeWhile_cons, hd46, hf])
        · simp only [mantissaP, List.takeWhile_cons, hd46, Bool.false_eq_true,
            if_false, List.isEmpty_nil, if_true, if_neg hf] at h
          injection h with h1 h2
          have htw2 : (r2 ++ t).takeWhile isDigit = r2.takeWhile isDigit :=
            takeWhile_append_of_ne t (takeWhile_ne_of_drop_ne_nil (by rw [h1]; exact hr))
          simp only [List.cons_append, mantissaP, List.takeWhile_cons, hd46,
            Bool.false_eq_true, if_false, List.isEmpty_nil, if_true]
          rw [htw2, if_neg hf, List.drop_append_of_le_length
            (takeWhile_length_le isDigit r2), h1, h2]
      · -- neither a digit run nor a dot: error
        have hdx : isDigit x = false := by
          by_contra hcon
          have hdig : isDigit x = true := by
            revert hcon
            cases isDigit x <;> simp
          simp [List.takeWhile_cons, hdig] at he
        exact absurd h (by simp [mantissaP, List.takeWhile_cons, hdx, hx])
  · -- leading digit run present
    simp only [mantissaP, if_neg he] at h
    have hne2 : List.drop (i.takeWhile isDigit).length i ≠ [] := by
      intro hnil
      rw [hnil] at h
      simp only [intTail] at h
      injection h with h1 h2
      exact hr h1.symm
    have htw : (i ++ t).takeWhile isDigit = i.takeWhile isDigit :=
      takeWhile_append_of_ne t (takeWhile_ne_of_drop_ne_nil hne2)
    simp only [mantissaP, htw, if_neg he]
    rw [List.drop_append_of_le_length (takeWhile_length_le isDigit i)]
    exact intTail_append t h hr

theorem exponentP_comma (xs : List Nat) : exponentP (44 :: xs) = none := rfl

theorem exponentP_some_append {i r : List Nat} {e : Int} (t : List Nat)
    (h : exponentP i = some (r, e)) (hr : r ≠ []) :
    exponentP (i ++ t) = some (r ++ t, e) := by
  rcases i with - | ⟨x, r3⟩
  · exact absurd h (by simp [exponentP])
  · simp only [exponentP] at h
    by_cases hx : x = 101 ∨ x = 69
    · rw [if_pos hx] at h
      have hr3 : r3 ≠ [] := by
        rintro rfl
        simp [stripSign] at h
      by_cases hee : ((stripSign r3).2.takeWhile isDigit).isEmpty = true
      · rw [if_pos hee] at h
        exact absurd h (by simp)
      · rw [if_neg hee] at h
        injection h with h1
        injection h1 with h2 h3
        have hsne : List.drop ((stripSign r3).2.takeWhile isDigit).length
            (stripSign r3).2 ≠ [] := by rw [h2]; exact hr
        have htw : ((stripSign r3).2 ++ t).takeWhile isDigit =
            (stripSign r3).2.takeWhile isDigit :=
          takeWhile_append_of_ne t (takeWhile_ne_of_drop_ne_nil hsne)
        simp only [List.cons_append, exponentP, if_pos hx,
          stripSign_append t hr3]
        rw [htw, if_neg hee, List.drop_append_of_le_length
          (takeWhile_length_le isDigit (stripSign r3).2), h2, h3]
    · rw [if_neg hx] at h
      exact absurd h (by simp)

theorem pdouble_append {i r : List Nat} {a : RFloat} (t : List Nat)
    (h : pdouble i = .ok r a) (hr : r.head? = some 44) :
    pdouble (i ++ t) = .ok (r ++ t) a := by
  rcases r with - | ⟨x, rs⟩
  · simp at hr
  · have hx : x = 44 := by simpa using hr
    subst hx
    have hine : i ≠ [] := by
      rintro rfl
      simp [pdouble, stripSign, mantissaP, PR.bind] at h
    simp only [pdouble] at h ⊢
    simp only [stripSign_append t hine]
    obtain ⟨i3, mant, hm, h⟩ := PR.bind_ok_inv h
    cases hexp : exponentP i3 with
    | none =>
      rw [hexp] at h
      injection h with h1 h2
      rw [mantissaP_append t hm (by rw [h1]; simp)]
      simp only [PR.bind]
      rw [h1]
      rw [show (44 :: rs) ++ t = 44 :: (rs ++ t) from rfl, exponentP_comma, h2]
    | some pe =>
      rcases pe with ⟨i4, e⟩
      rw [hexp] at h
      injection h with h1 h2
      have hi3ne : i3 ≠ [] := by
        rintro rfl
        simp [exponentP] at hexp
      rw [mantissaP_append t hm hi3ne]
      simp only [PR.bind]
      rw [exponentP_some_append t hexp (by rw [h1]; simp), h1]
      exact congrArg (fun v => PR.ok ((44 :: rs) ++ t) v) h2

theorem parse_float_field_append {i r : List Nat} {a : ℚ} (t : List Nat)
    (h : parse_float_field i = .ok r a) :
    parse_float_field (i ++ t) = .ok (r ++ t) a := by
  unfold parse_float_field at h ⊢
  obtain ⟨r1, tk, h1, h⟩ := PR.bind_ok_inv h
  obtain ⟨v, hv, h⟩ := PR.ofOption_ok_inv h
  injection h with h2 h3
  subst h2
  subst h3
  rw [takeUntilByte_append t h1]
  simp only [PR.bind, hv, PR.ofOption]

theorem parse_float_field_comma (xs : List Nat) :
    parse_float_field (44 :: xs) = .err := rfl

theorem parse_hms_append {i r : List Nat} {a : NTime} (t : List Nat)
    (h : parse_hms i = .ok r a) : parse_hms (i ++ t) = .ok (r ++ t) a := by
  simp only [parse_hms] at h ⊢
  obtain ⟨i1, hb, h1, h⟩ := PR.bind_ok_inv h
  obtain ⟨hour, hh, h⟩ := PR.ofOption_ok_inv h
  obtain ⟨i2, mb, h2, h⟩ := PR.bind_ok_inv h
  obtain ⟨minutes, hm, h⟩ := PR.ofOption_ok_inv h
  obtain ⟨i3, sb, h3, h⟩ := PR.bind_ok_inv h
  rw [ptake_append t h1]
  simp only [PR.bind, hh, PR.ofOption]
  rw [ptake_append t h2]
  simp only [PR.bind, hm, PR.ofOption]
  rw [takeUntilByte_append t h3]
  simp only [PR.bind]
  cases hp : pdouble sb with
  | err =>
    rw [hp] at h
    exact absurd h (by simp [PR.discard])
  | panic =>
    rw [hp] at h
    exact absurd h (by simp [PR.discard])
  | ok u sec =>
    rw [hp] at h
    simp only [PR.discard] at h
    simp only [PR.discard]
    by_cases hneg : sec.neg = true
    · rw [if_pos hneg] at h
      exact absurd h (by simp)
    · rw [if_neg hneg] at h
      rw [if_neg hneg]
      by_cases hh24 : hour ≥ 24
      · rw [if_pos hh24] at h
        exact absurd h (by simp)
      · rw [if_neg hh24] at h
        rw [if_neg hh24]
        by_cases hm60 : minutes ≥ 60
        · rw [if_pos hm60] at h
          exact absurd h (by simp)
        · rw [if_neg hm60] at h
          rw [if_neg hm60]
          cases hnt : NaiveTime_from_hms_nano hour minutes
              (min (Int.toNat ⌊sec.val⌋) (2 ^ 32 - 1))
              (Int.toNat (round ((sec.val - ⌊sec.val⌋) * 1000000000))) with
          | none =>
            rw [hnt] at h
            exact absurd h (by simp)
          | some tm =>
            rw [hnt] at h
            injection h with ha hb
            rw [ha, hb]

theorem pchar_ne_panic (c : Nat) (i : List Nat) : pchar c i ≠ .panic := by
  cases i with
  | nil => simp [pchar]
  | cons x xs =>
    simp only [pchar]
    split_ifs <;> simp

theorem ptag_ne_panic (s i : List Nat) : ptag s i ≠ .panic := by
  induction s generalizing i with
  | nil => simp [ptag]
  | cons c s' ih =>
    cases i with
    | nil => simp [ptag]
    | cons x i' =>
      simp only [ptag]
      split_ifs
      · cases hrec : ptag s' i' <;> simp
      · simp

theorem ptag_append {s i r a : List Nat} (t : List Nat)
    (h : ptag s i = .ok r a) : ptag s (i ++ t) = .ok (r ++ t) a := by
  induction s generalizing i r a with
  | nil =>
    simp only [ptag] at h
    injection h with h1 h2
    subst h1
    subst h2
    simp [ptag]
  | cons c s' ih =>
    cases i with
    | nil => exact absurd h (by simp [ptag])
    | cons x i' =>
      simp only [ptag] at h
      by_cases hx : x = c
      · rw [if_pos hx] at h
        cases hrec : ptag s' i' with
        | ok r2 tk =>
          rw [hrec] at h
          injection h with h1 h2
          simp only [List.cons_append, ptag, if_pos hx]
          rw [show List.append i' t = i' ++ t from rfl, ih hrec, h1]
          exact congrArg (PR.ok (r ++ t)) h2
        | err =>
          rw [hrec] at h
          exact absurd h (by simp)
        | panic => exact absurd hrec (ptag_ne_panic s' i')
      · rw [if_neg hx] at h
        exact absurd h (by simp)

theorem ptag_err_append {s i : List Nat} (t : List Nat)
    (hl : s.length ≤ i.length) (h : ptag s i = .err) :
    ptag s (i ++ t) = .err := by
  induction s generalizing i with
  | nil => exact absurd h (by simp [ptag])
  | cons c s' ih =>
    cases i with
    | nil => simp at hl
    | cons x i' =>
      simp only [ptag] at h
      simp only [List.cons_append, ptag]
      by_cases hx : x = c
      · rw [if_pos hx] at h
        rw [if_pos hx]
        cases hrec : ptag s' i' with
        | ok r2 tk =>
          rw [hrec] at h
          exact absurd h (by simp)
        | err =>
          rw [show List.append i' t = i' ++ t from rfl,
            ih (by simp only [List.length_cons] at hl; omega) hrec]
        | panic => exact absurd hrec (ptag_ne_panic s' i')
      · rw [if_neg hx]
      
theorem pdouble_nil : pdouble [] = .err := rfl

theorem do_parse_lat_lon_append {i r : List Nat} {v : ℚ × ℚ} (t : List Nat)
    (h : do_parse_lat_lon i = .ok r v) :
    do_parse_lat_lon (i ++ t) = .ok (r ++ t) v := by
  unfold do_parse_lat_lon at h ⊢
  obtain ⟨i1, latDegB, h1, h⟩ := PR.bind_ok_inv h
  obtain ⟨lat_deg, hld, h⟩ := PR.ofOption_ok_inv h
  obtain ⟨i2, lat_min, h2, h⟩ := PR.bind_ok_inv h
  obtain ⟨i3, c3, h3, h⟩ := PR.bind_ok_inv h
  obtain ⟨i4, lat_dir, h4, h⟩ := PR.bind_ok_inv h
  obtain ⟨i5, c5, h5, h⟩ := PR.bind_ok_inv h
  obtain ⟨i6, lonDegB, h6, h⟩ := PR.bind_ok_inv h
  obtain ⟨lon_deg, hlond, h⟩ := PR.ofOption_ok_inv h
  obtain ⟨i7, lon_min, h7, h⟩ := PR.bind_ok_inv h
  obtain ⟨i8, c8, h8, h⟩ := PR.bind_ok_inv h
  obtain ⟨i9, lon_dir, h9, h⟩ := PR.bind_ok_inv h
  obtain ⟨hi2, -⟩ := pchar_ok_inv h3
  obtain ⟨hi7, -⟩ := pchar_ok_inv h8
  rw [ptake_append t h1]
  simp only [PR.bind, hld, PR.ofOption]
  rw [pdouble_append t h2 (by rw [hi2]; rfl)]
  simp only [PR.bind]
  rw [pchar_append t h3]
  simp only [PR.bind]
  rw [poneOf_append t h4]
  simp only [PR.bind]
  rw [pchar_append t h5]
  simp only [PR.bind]
  rw [ptake_append t h6]
  simp only [PR.bind, hlond, PR.ofOption]
  rw [pdouble_append t h7 (by rw [hi7]; rfl)]
  simp only [PR.bind]
  rw [pchar_append t h8]
  simp only [PR.bind]
  rw [poneOf_append t h9]
  simp only [PR.bind]
  injection h with ha hb
  rw [ha]
  exact congrArg (PR.ok (r ++ t)) hb

theorem do_parse_lat_lon_len {i r : List Nat} {v : ℚ × ℚ}
    (h : do_parse_lat_lon i = .ok r v) : 3 ≤ i.length := by
  unfold do_parse_lat_lon at h
  obtain ⟨i1, latDegB, h1, h⟩ := PR.bind_ok_inv h
  obtain ⟨lat_deg, hld, h⟩ := PR.ofOption_ok_inv h
  obtain ⟨i2, lat_min, h2, h⟩ := PR.bind_ok_inv h
  obtain ⟨-, hr, hn⟩ := ptake_ok_inv h1
  have hi1 : i1 ≠ [] := by
    intro hnil
    rw [hnil, pdouble_nil] at h2
    exact PR.noConfusion h2
  have h3 : ¬ (i.length ≤ 2) := by
    intro hle
    apply hi1
    rw [hr]
    exact List.drop_eq_nil_of_le hle
  omega

theorem parse_lat_lon_append {i r : List Nat} {v : Option (ℚ × ℚ)}
    (t : List Nat) (h : parse_lat_lon i = .ok r v) :
    parse_lat_lon (i ++ t) = .ok (r ++ t) v := by
  unfold parse_lat_lon at h ⊢
  cases htag : ptag [44, 44, 44] i with
  | ok u a =>
    rw [htag] at h
    injection h with ha hb
    rw [ptag_append t htag, ← ha, ← hb]
  | panic => exact absurd htag (ptag_ne_panic _ _)
  | err =>
    rw [htag] at h
    cases hdo : do_parse_lat_lon i with
    | ok u w =>
      rw [hdo] at h
      injection h with ha hb
      have hlen : 3 ≤ i.length := do_parse_lat_lon_len hdo
      rw [ptag_err_append t (by simpa using hlen) htag]
      rw [do_parse_lat_lon_append t hdo, ← ha, ← hb]
    | err =>
      rw [hdo] at h
      exact absurd h (by simp)
    | panic =>
      rw [hdo] at h
      exact absurd h (by simp)

/-- `opt(p)` at a field whose remainder starts with the field comma is stable
under appending bytes: a present field re-parses identically, and an absent
field stays absent because `p` fails on the comma. -/
theorem popt_comma_stable {α : Type} {pp : List Nat → PR α} {i i2 : List Nat}
    {v : Option α} (t : List Nat)
    (hcomma : ∀ xs, pp (44 :: xs) = .err)
    (happ : ∀ a : α, pp i = .ok (44 :: i2) a →
      pp (i ++ t) = .ok ((44 :: i2) ++ t) a)
    (h : popt pp i = .ok (44 :: i2) v) :
    popt pp (i ++ t) = .ok ((44 :: i2) ++ t) v := by
  rcases popt_ok_inv h with ⟨a, hv, hp⟩ | ⟨hv, hr, hp⟩
  · subst hv
    unfold popt
    rw [happ a hp]
  · subst hv
    subst hr
    unfold popt
    rw [show (44 :: i2) ++ t = 44 :: (i2 ++ t) from rfl, hcomma (i2 ++ t)]

theorem do_parse_gga_append {p rest : List Nat} {g : GgaData} (t : List Nat)
    (h : do_parse_gga p = .ok rest g) :
    ∃ rest2, do_parse_gga (p ++ t) = .ok rest2 g := by
  unfold do_parse_gga at h ⊢
  obtain ⟨i1, fix_time, ho1, h⟩ := PR.bind_ok_inv h
  obtain ⟨i2, c2, hc2, h⟩ := PR.bind_ok_inv h
  obtain ⟨i3, lat_lon, hll, h⟩ := PR.bind_ok_inv h
  obtain ⟨i4, c4, hc4, h⟩ := PR.bind_ok_inv h
  obtain ⟨i5, q, hq, h⟩ := PR.bind_ok_inv h
  obtain ⟨i6, c6, hc6, h⟩ := PR.bind_ok_inv h
  obtain ⟨i7, sats, ho7, h⟩ := PR.bind_ok_inv h
  obtain ⟨i8, c8, hc8, h⟩ := PR.bind_ok_inv h
  obtain ⟨i9, hdop, ho9, h⟩ := PR.bind_ok_inv h
  obtain ⟨i10, c10, hc10, h⟩ := PR.bind_ok_inv h
  obtain ⟨i11, alt, ho11, h⟩ := PR.bind_ok_inv h
  obtain ⟨i12, c12, hc12, h⟩ := PR.bind_ok_inv h
  obtain ⟨i13, m13, ho13, h⟩ := PR.bind_ok_inv h
  obtain ⟨i14, c14, hc14, h⟩ := PR.bind_ok_inv h
  obtain ⟨i15, geoid, ho15, h⟩ := PR.bind_ok_inv h
  obtain ⟨i16, c16, hc16, h⟩ := PR.bind_ok_inv h
  obtain ⟨i17, m17, ho17, h⟩ := PR.bind_ok_inv h
  injection h with hi hg
  obtain ⟨hp1, -⟩ := pchar_ok_inv hc2
  obtain ⟨hp3, -⟩ := pchar_ok_inv hc4
  obtain ⟨hp5, -⟩ := pchar_ok_inv hc6
  obtain ⟨hp7, -⟩ := pchar_ok_inv hc8
  obtain ⟨hp9, -⟩ := pchar_ok_inv hc10
  obtain ⟨hp11, -⟩ := pchar_ok_inv hc12
  obtain ⟨hp13, -⟩ := pchar_ok_inv hc14
  obtain ⟨hp15, -⟩ := pchar_ok_inv hc16
  subst hp1
  subst hp3
  subst hp5
  subst hp7
  subst hp9
  subst hp11
  subst hp13
  subst hp15
  have hlast : ∃ u w, popt (pchar 77) (i16 ++ t) = .ok u w := by
    unfold popt
    cases hx : pchar 77 (i16 ++ t) with
    | ok a b => exact ⟨a, some b, rfl⟩
    | err => exact ⟨i16 ++ t, none, rfl⟩
    | panic => exact absurd hx (pchar_ne_panic 77 (i16 ++ t))
  obtain ⟨u, w, hlast⟩ := hlast
  refine ⟨u, ?_⟩
  rw [popt_comma_stable t parse_hms_comma (fun a hp => parse_hms_append t hp)
    ho1]
  simp only [PR.bind]
  rw [pchar_append t hc2]
  simp only [PR.bind]
  rw [parse_lat_lon_append t hll]
  simp only [PR.bind]
  rw [pchar_append t hc4]
  simp only [PR.bind]
  rw [poneOf_append t hq]
  simp only [PR.bind]
  rw [pchar_append t hc6]
  simp only [PR.bind]
  rw [popt_comma_stable t (pnumber_comma (2 ^ 32))
    (fun a hp => pnumber_append t hp (by simp)) ho7]
  simp only [PR.bind]
  rw [pchar_append t hc8]
  simp only [PR.bind]
  rw [popt_comma_stable t pdouble_comma
    (fun a hp => pdouble_append t hp rfl) ho9]
  simp only [PR.bind]
  rw [pchar_append t hc10]
  simp only [PR.bind]
  rw [popt_comma_stable t parse_float_field_comma
    (fun a hp => parse_float_field_append t hp) ho11]
  simp only [PR.bind]
  rw [pchar_append t hc12]
  simp only [PR.bind]
  rw [popt_comma_stable t pchar77_comma (fun a hp => pchar_append t hp) ho13]
  simp only [PR.bind]
  rw [pchar_append t hc14]
  simp only [PR.bind]
  rw [popt_comma_stable t parse_float_field_comma
    (fun a hp => parse_float_field_append t hp) ho15]
  simp only [PR.bind]
  rw [pchar_append t hc16]
  simp only [PR.bind]
  rw [hlast]
  simp only [PR.bind]
  rw [hg]

/-- Claim C10: for every GGA data span that decodes successfully, any bytes
past the geoid-height unit slot (such as the DGPS age and station-id fields)
are left unconsumed: appending trailing bytes to the span never causes
failure and yields the same decoded record, both at the span level
(`do_parse_gga`, up to the leftover remainder) and at the sentence level
(`parse_gga`, where the remainder is discarded). -/
theorem gga_trailing_ignored :
    (∀ (p t rest : List Nat) (g : GgaData), do_parse_gga p = .ok rest g →
      ∃ rest2, do_parse_gga (p ++ t) = .ok rest2 g) ∧
    (∀ (s : NmeaSentence) (t : List Nat) (g : GgaData), parse_gga s = .ok g →
      parse_gga { s with data := s.data ++ t } = .ok g) := by
  constructor
  · intro p t rest g h
    exact do_parse_gga_append t h
  · intro s t g h
    simp only [parse_gga] at h ⊢
    by_cases hid : s.message_id ≠ [71, 71, 65]
    · rw [if_pos hid] at h
      exact absurd h (by simp)
    · rw [if_neg hid] at h
      rw [if_neg hid]
      cases hdo : do_parse_gga s.data with
      | ok u d =>
        rw [hdo] at h
        injection h with hd
        obtain ⟨r2, hr2⟩ := do_parse_gga_append t hdo
        rw [hr2, hd]
      | err =>
        rw [hdo] at h
        exact absurd h (by simp)
      | panic =>
        rw [hdo] at h
        exact absurd h (by simp)

theorem gga_trailing_ignored_witness :
    (∃ rest2, do_parse_gga
        ([44, 44, 44, 44, 44, 48, 44, 44, 44, 44, 44, 44, 44, 44] ++ [49, 50])
        = .ok rest2 ⟨none, some .Invalid, none, none, none, none, none, none⟩) ∧
      parse_gga ⟨[71, 80], [71, 71, 65],
          [44, 44, 44, 44, 44, 48, 44, 44, 44, 44, 44, 44, 44, 44] ++ [49, 50],
          0⟩
        = .ok ⟨none, some .Invalid, none, none, none, none, none, none⟩ :=
  ⟨gga_trailing_ignored.1
      [44, 44, 44, 44, 44, 48, 44, 44, 44, 44, 44, 44, 44, 44] [49, 50]
      [44, 44] ⟨none, some .Invalid, none, none, none, none, none, none⟩ rfl,
    gga_trailing_ignored.2
      ⟨[71, 80], [71, 71, 65],
        [44, 44, 44, 44, 44, 48, 44, 44, 44, 44, 44, 44, 44, 44], 0⟩
      [49, 50] ⟨none, some .Invalid, none, none, none, none, none, none⟩ rfl⟩
